import Mathlib

/-!
Verification of the medexam-parser record-integration pipeline.

Shallow embedding of the Python sources:
  src/steps/step5b_integrate_answers.py   (answer/image integration, dedup, sorting)
  src/steps/step2_reorder.py              (reading-order reconstruction)
  src/steps/step4c_map_images.py          (single-question image mapping)
  src/steps/step4d_map_consecutive_images.py (consecutive image mapping)
  src/steps/step3b_chunk_consecutive.py   (consecutive block detection)

Text is modelled as List Char (Python str positions are code points).
File I/O is out of scope: each function takes the parsed contents of the
artifacts it reads.  JSON numbers are modelled as Int (coordinates as Rat),
Python float values as exact decimal mantissa/exponent pairs.
-/

/-- ASCII decimal digit test, the model of the regex class for digits
(Python also accepts some non-ASCII decimal digits; those never occur in
the artifacts handled here). -/
def isDigitC (c : Char) : Bool := 48 ≤ c.toNat && c.toNat ≤ 57

/-- ASCII letter test, the model of the regex class for A-Za-z. -/
def isAsciiAlpha (c : Char) : Bool :=
  (65 ≤ c.toNat && c.toNat ≤ 90) || (97 ≤ c.toNat && c.toNat ≤ 122)

/-- Numeric value of a list of decimal digit characters (reading groups of
the regexes with int()). -/
def digitsVal (l : List Char) : Nat :=
  l.foldl (fun a c => 10 * a + (c.toNat - 48)) 0

/-- Decimal digit characters of a natural number, via a fuel bound. -/
def natDigitsAux : Nat → Nat → List Char → List Char
  | 0, _, acc => acc
  | f + 1, n, acc =>
    let d := Char.ofNat (48 + n % 10)
    if n < 10 then d :: acc else natDigitsAux f (n / 10) (d :: acc)

/-- Decimal representation of a natural number, as Python str() produces it. -/
def natDigits (n : Nat) : List Char := natDigitsAux (n + 1) n []

/-- Lexicographic comparison of code-point sequences; this is how Python
compares strings. -/
def strLeB : List Char → List Char → Bool
  | [], _ => true
  | _ :: _, [] => false
  | a :: as, b :: bs =>
    if a.toNat < b.toNat then true
    else if b.toNat < a.toNat then false
    else strLeB as bs

/-- Stable insertion of an element into a list, placing it before the first
strictly greater element (the helper for the model of the stable Python
list sort). -/
def insOrdered (lt : α → α → Bool) (x : α) : List α → List α
  | [] => [x]
  | y :: ys => if lt x y then x :: y :: ys else y :: insOrdered lt x ys

/-- Tail of the stable sort: insert the remaining elements, in original
order, into the accumulated sorted list. -/
def pySortAux (lt : α → α → Bool) : List α → List α → List α
  | acc, [] => acc
  | acc, x :: xs => pySortAux lt (insOrdered lt x acc) xs

/-- Model of the stable Python sort (list.sort / sorted with a key): a
stable insertion sort driven by the strict part of the given boolean
comparison. -/
def pySort (le : α → α → Bool) (l : List α) : List α :=
  pySortAux (fun a b => le a b && !(le b a)) [] l

/-- Whitespace characters stripped or matched by Python for the inputs at
hand: ASCII whitespace plus the ideographic space U+3000 (Python handles
further Unicode spaces that do not occur in these documents). -/
def isPySpace (c : Char) : Bool :=
  c = ' ' || c = '\t' || c = '\n' || c = '\r' ||
    c.toNat = 11 || c.toNat = 12 || c.toNat = 12288

/-- Model of Python str.strip(): drop whitespace from both ends. -/
def pyStrip (l : List Char) : List Char :=
  ((l.dropWhile isPySpace).reverse.dropWhile isPySpace).reverse

/-- Model of Python str.lower() on the character sets that occur in answer
tokens: ASCII A-Z and fullwidth A-Z are shifted to their lowercase forms. -/
def pyLowerChar (c : Char) : Char :=
  if (65 ≤ c.toNat && c.toNat ≤ 90) || (65313 ≤ c.toNat && c.toNat ≤ 65338) then
    Char.ofNat (c.toNat + 32)
  else c

/-- Lowercased copy of a token, as the list comprehension in
format_answer_info produces with str(ans).lower(). -/
def pyLower (l : List Char) : List Char := l.map pyLowerChar

/-- Exponent tail of a Python float literal: optional sign then at least
one digit, consuming the whole rest of the token. -/
def parseExpTail (l : List Char) : Option Int :=
  let (sgn, r) := match l with
    | '+' :: r => ((1 : Int), r)
    | '-' :: r => ((-1 : Int), r)
    | r => ((1 : Int), r)
  match r.takeWhile isDigitC, r.dropWhile isDigitC with
  | [], _ => none
  | ds, [] => some (sgn * (digitsVal ds : Int))
  | _, _ :: _ => none

/-- Exact decimal value mant * 10 ^ expo, canonicalized so that ten does
not divide the mantissa (and zero has exponent zero): distinct canonical
pairs denote distinct values.  This represents the float values the code
handles exactly, while staying inside kernel-computable integer
arithmetic. -/
def stripTens : Nat → Int → Int → Int × Int
  | 0, n, e => (n, e)
  | f + 1, n, e =>
    if n ≠ 0 && n % 10 = 0 then stripTens f (n / 10) (e + 1) else (n, e)

/-- Canonical decimal pair of the value m * 10 ^ (e minus k): factors of
ten are moved from the mantissa into the exponent. -/
def decCanon (m : Int) (k : Nat) (e : Int) : Int × Int :=
  if m = 0 then (0, 0) else stripTens m.natAbs m (e - k)

/-- Model of Python float() on decimal literals: optional surrounding
whitespace, optional sign, digits with an optional fractional part and an
optional exponent.  The result is the exact decimal value as a canonical
mantissa/exponent pair; the binary rounding of IEEE doubles is immaterial
for the integrality test the code performs on the answer tokens at hand.
Special forms (inf, nan, underscore separators) are not modelled; they do
not occur in answer tables. -/
def pyFloat (s : List Char) : Option (Int × Int) :=
  let t := pyStrip s
  let (sgn, r) := match t with
    | '+' :: r => ((1 : Int), r)
    | '-' :: r => ((-1 : Int), r)
    | r => ((1 : Int), r)
  let ip := r.takeWhile isDigitC
  let r1 := r.dropWhile isDigitC
  let (fp, r2) := match r1 with
    | '.' :: r => (r.takeWhile isDigitC, r.dropWhile isDigitC)
    | _ => ([], r1)
  if ip = [] && fp = [] then none
  else
    let m : Int := sgn * (digitsVal (ip ++ fp) : Int)
    match r2 with
    | [] => some (decCanon m fp.length 0)
    | 'e' :: r3 =>
      match parseExpTail r3 with
      | some e => some (decCanon m fp.length e)
      | none => none
    | 'E' :: r3 =>
      match parseExpTail r3 with
      | some e => some (decCanon m fp.length e)
      | none => none
    | _ => none

/-- Numeric answer value: int(float_val) when the float is integral,
otherwise the float itself, kept as a canonical decimal pair
(step5b_integrate_answers.py lines 14-16). -/
inductive NumVal where
  | ofInt (n : Int)
  | ofFloat (mant : Int) (expo : Int)
deriving DecidableEq, Repr

/-- Integrality dispatch of format_answer_info: value = int_val if
int_val == float_val else float_val.  A canonical decimal pair is an
integer exactly when its exponent is nonnegative. -/
def numValOfDec (d : Int × Int) : NumVal :=
  if 0 ≤ d.2 then NumVal.ofInt (d.1 * (10 : Int) ^ d.2.toNat)
  else NumVal.ofFloat d.1 d.2

/-- Result of format_answer_info: the empty dict, a value/unit dict, or a
choices dict. -/
inductive AnswerInfo where
  | noAnswer
  | numValue (v : NumVal)
  | choices (cs : List (List Char))
deriving DecidableEq, Repr

/-- Model of format_answer_info (step5b_integrate_answers.py lines 6-20):
empty list gives the empty dict; if float() succeeds on the FIRST token the
result is a numeric value (int when integral); otherwise every token is
lowercased into a choices list, in input order. -/
def format_answer_info (answer_list : List (List Char)) : AnswerInfo :=
  match answer_list with
  | [] => AnswerInfo.noAnswer
  | first :: _ =>
    match pyFloat first with
    | some d => AnswerInfo.numValue (numValOfDec d)
    | none => AnswerInfo.choices (answer_list.map pyLower)

/-- Entry of the images list stored inside a problem dict: the code appends
dicts with keys id and path. -/
structure ImgRef where
  id : Option (List Char)
  path : Option (List Char)
deriving DecidableEq, Repr

/-- Entry of an ImageMapping artifact value (steps 4c/4d): image_path,
source_page (none models the N/A placeholder of step4c), source_text and
the assigned image_id. -/
structure ImgInfo where
  image_path : Option (List Char)
  source_page : Option Int
  source_text : List Char
  image_id : Option (List Char)
deriving DecidableEq, Repr

/-- Question dict as handled by step5b: the fields that the integration
reads or writes, plus the inert text payload. -/
structure Problem where
  id : Option (List Char)
  join_key : Option (List Char)
  problem_number : Option Int
  text : List Char
  answer : Option AnswerInfo
  images : Option (List ImgRef)
deriving DecidableEq, Repr

/-- Consecutive block record as produced by step4b and read by step5b. -/
structure ConsecBlock where
  join_key : Option (List Char)
  case_presentation : Problem
  sub_questions : List Problem
deriving DecidableEq, Repr

/-- Entry of the all_problems list of step5b: the tagged problem_format
union (single wrapper dict, or the consecutive block dict itself). -/
inductive IntegratedProblem where
  | single (id : Option (List Char)) (problem : Problem)
  | consecutive (block : ConsecBlock)
deriving DecidableEq, Repr

/-- First-match lookup in an insertion-ordered dict modelled as an
association list (keys are unique in every dict the code builds). -/
def dictLookup (k : List Char) : List (List Char × α) → Option α
  | [] => none
  | (k2, v) :: rest => if k = k2 then some v else dictLookup k rest

/-- Ordering of image dicts by their path key with default empty string:
the key function of problem images sort. -/
def imgRefLe (a b : ImgRef) : Bool :=
  strLeB (a.path.getD []) (b.path.getD [])

/-- Model of _integrate_data_into_problem (step5b_integrate_answers.py
lines 22-47): skip problems with a falsy join_key; set the answer from the
answer table when the key is present; append incoming mapped images whose
path is not among the paths already present, then re-sort the images list
by path. -/
def _integrate_data_into_problem (problem : Problem) (answer_key : List (List Char × List (List Char)))
    (image_mappings : List (List Char × List ImgInfo)) : Problem :=
  match problem.join_key with
  | none => problem
  | some jk =>
    if jk = [] then problem
    else
      let p1 :=
        match dictLookup jk answer_key with
        | some ans => { problem with answer := some (format_answer_info ans) }
        | none => problem
      match dictLookup jk image_mappings with
      | none => p1
      | some incoming =>
        let orig := p1.images.getD []
        let existing_paths := orig.map (fun i => i.path)
        let appended := orig ++
          (incoming.filter (fun n => !(decide (n.image_path ∈ existing_paths)))).map
            (fun n => { id := n.image_id, path := n.image_path : ImgRef })
        { p1 with images := some (pySort imgRefLe appended) }

/-- Model of _get_sort_key (step5b_integrate_answers.py lines 49-65).
Non-string keys give the pair of the empty string and infinity (infinity
modelled as none); a key of the shape letters-digits gives the letter run
and the number; any other string gives the whole key and infinity. -/
def _get_sort_key : Option (List Char) → List Char × Option Nat
  | none => ([], none)
  | some s =>
    let letters := s.takeWhile isAsciiAlpha
    let rest := s.dropWhile isAsciiAlpha
    match letters, rest with
    | _ :: _, '-' :: r2 =>
      match r2.takeWhile isDigitC with
      | [] => (s, none)
      | ds => (letters, some (digitsVal ds))
    | _, _ => (s, none)

/-- Order on optional numbers with none as positive infinity, as the float
inf sentinel of _get_sort_key behaves under Python comparison. -/
def optNatLe : Option Nat → Option Nat → Bool
  | _, none => true
  | none, some _ => false
  | some a, some b => a ≤ b

/-- Python tuple comparison of two sort keys: the string part first, then
the numeric part. -/
def keyLe (k1 k2 : List Char × Option Nat) : Bool :=
  if k1.1 = k2.1 then optNatLe k1.2 k2.2 else strLeB k1.1 k2.1

/-- Model of get_sort_key_for_problem (step5b_integrate_answers.py lines
163-169): single records sort by the join_key of the inner problem,
consecutive records by the join_key of the block itself. -/
def problemSortKey : IntegratedProblem → List Char × Option Nat
  | IntegratedProblem.single _ p => _get_sort_key p.join_key
  | IntegratedProblem.consecutive b => _get_sort_key b.join_key

/-- Comparison used by the final all_problems sort. -/
def recKeyLe (a b : IntegratedProblem) : Bool :=
  keyLe (problemSortKey a) (problemSortKey b)

/-- Dict-extend on the merged image mappings: a known key extends its list
in place, a new key is appended at the end (step5b lines 137-140). -/
def dictExtend : List (List Char × List ImgInfo) → List Char → List ImgInfo →
    List (List Char × List ImgInfo)
  | [], k, v => [(k, v)]
  | (k2, v2) :: rest, k, v =>
    if k = k2 then (k2, v2 ++ v) :: rest else (k2, v2) :: dictExtend rest k v

/-- Model of the image-mapping merge loop (step5b lines 130-142): each
mapping file is folded into one dict, concatenating value lists per key. -/
def mergeMappings (files : List (List (List Char × List ImgInfo))) :
    List (List Char × List ImgInfo) :=
  files.foldl (fun acc file => file.foldl (fun a kv => dictExtend a kv.1 kv.2) acc) []

/-- Problem numbers found inside sub_questions of consecutive blocks, the
consecutive_q_numbers set of step5b lines 81-92 (only membership of this
set is ever used). -/
def consecNumbers (consecFiles : List (List ConsecBlock)) : List Int :=
  ((consecFiles.flatten).map
    (fun b => b.sub_questions.filterMap (fun q => q.problem_number))).flatten

/-- Filter of the single-problem load (step5b lines 106-113): keep exactly
the problems whose problem_number is present and not captured by any
consecutive block. -/
def keepSingle (ns : List Int) (p : Problem) : Bool :=
  match p.problem_number with
  | some n => !(decide (n ∈ ns))
  | none => false

/-- Per-record integration pass of step5b lines 146-159: singles get
answers and images; consecutive blocks get images on the case presentation
(never answers there), and answers and images on each sub-question. -/
def integrateRecord (answer_key : List (List Char × List (List Char)))
    (im : List (List Char × List ImgInfo)) : IntegratedProblem → IntegratedProblem
  | IntegratedProblem.single i p => IntegratedProblem.single i (_integrate_data_into_problem p answer_key im)
  | IntegratedProblem.consecutive b =>
    IntegratedProblem.consecutive
      { b with
        case_presentation := _integrate_data_into_problem b.case_presentation [] im
        sub_questions := b.sub_questions.map (fun q => _integrate_data_into_problem q answer_key im) }

/-- Truthy join keys contributed by one record to used_join_keys
(step5b lines 150, 155, 159). -/
def usedKeysOf : IntegratedProblem → List (List Char)
  | IntegratedProblem.single _ p =>
    (match p.join_key with | some jk => if jk = [] then [] else [jk] | none => [])
  | IntegratedProblem.consecutive b =>
    (match b.join_key with | some jk => if jk = [] then [] else [jk] | none => []) ++
      (b.sub_questions.map (fun q =>
        match q.join_key with
        | some jk => if jk = [] then [] else [jk]
        | none => [])).flatten

/-- Contents of the all_problems list before integration (step5b lines
98-113): all consecutive blocks in file order, then the surviving single
problems wrapped in their single-format dict. -/
def allProblemsOf (consecFiles : List (List ConsecBlock))
    (singleFiles : List (List Problem)) : List IntegratedProblem :=
  (consecFiles.flatten).map IntegratedProblem.consecutive ++
    ((singleFiles.flatten).filter (keepSingle (consecNumbers consecFiles))).map
      (fun p => IntegratedProblem.single p.id p)

/-- The all_problems list after the integration loop of step5b lines
144-159. -/
def integratedOf (consecFiles : List (List ConsecBlock))
    (singleFiles : List (List Problem))
    (answer_key : List (List Char × List (List Char)))
    (imageFiles : List (List (List Char × List ImgInfo))) : List IntegratedProblem :=
  (allProblemsOf consecFiles singleFiles).map
    (integrateRecord answer_key (mergeMappings imageFiles))

/-- The used_join_keys accumulator after the integration loop (only its
membership is observable). -/
def usedOf (consecFiles : List (List ConsecBlock))
    (singleFiles : List (List Problem))
    (answer_key : List (List Char × List (List Char)))
    (imageFiles : List (List (List Char × List ImgInfo))) : List (List Char) :=
  ((integratedOf consecFiles singleFiles answer_key imageFiles).map usedKeysOf).flatten

/-- The unmatched answer keys of step5b line 174, in table order. -/
def unmatchedOf (consecFiles : List (List ConsecBlock))
    (singleFiles : List (List Problem))
    (answer_key : List (List Char × List (List Char)))
    (imageFiles : List (List (List Char × List ImgInfo))) : List (List Char) :=
  (answer_key.filter
    (fun kv => !(decide (kv.1 ∈ usedOf consecFiles singleFiles answer_key imageFiles)))).map
    (fun kv => kv.1)

/-- Model of integrate_answers (step5b_integrate_answers.py lines 67-190)
on the parsed contents of its input artifacts.  Unreadable input files are
skipped by the code, so the inputs here are the lists that survive
parsing; the missing-answer-key case is the empty table.  The result is
none when no problems remain after deduplication (the code aborts), and
otherwise the pair of the sorted integrated record list (contents of
step5b_integrated.json) and the unmatched answer keys (contents of
step5b_unmatched_answers.json, written only when nonempty). -/
def integrate_answers (consecFiles : List (List ConsecBlock))
    (singleFiles : List (List Problem))
    (answer_key : List (List Char × List (List Char)))
    (imageFiles : List (List (List Char × List ImgInfo))) :
    Option (List IntegratedProblem × List (List Char)) :=
  if allProblemsOf consecFiles singleFiles = [] then none
  else
    some (pySort recKeyLe (integratedOf consecFiles singleFiles answer_key imageFiles),
      unmatchedOf consecFiles singleFiles answer_key imageFiles)

/-- Single problem with a join key but no problem_number, used as concrete
input material. -/
def exProbNoNum : Problem :=
  { id := some "q0".data, join_key := some "A-2".data, problem_number := none,
    text := "t0".data, answer := none, images := none }

/-- Ordinary single problem with key A-1 and number 1, used as concrete
input material. -/
def exProbA1 : Problem :=
  { id := some "q1".data, join_key := some "A-1".data, problem_number := some 1,
    text := "t1".data, answer := none, images := none }

/-- Single problem whose join key 1-2 does not match the letters-dash-digits
sort pattern, used as concrete input material. -/
def exProbKey12 : Problem :=
  { id := some "qx".data, join_key := some "1-2".data, problem_number := some 7,
    text := "tx".data, answer := none, images := none }

/-- Mapping entry with path a.webp, used as concrete input material. -/
def exImgA : ImgInfo :=
  { image_path := some "a.webp".data, source_page := some 1,
    source_text := "(A 問題1)".data, image_id := some "A".data }

/-- Image reference with id A and path a.webp, used as concrete output
material. -/
def exImgRefAA : ImgRef := { id := some "A".data, path := some "a.webp".data }

/-- Text block of a raw page as read by step2_reorder.py: an optional bbox
list (absent models a missing bbox key; a list shorter than two entries
models the IndexError case) and the block text. -/
structure TextBlock where
  bbox : Option (List Rat)
  text : List Char
deriving DecidableEq, Repr

/-- Raw page content as read by step2_reorder.py. -/
structure RawPageBlocks where
  page_number : Option Nat
  text_blocks : List TextBlock
deriving DecidableEq, Repr

/-- Whether computing the sort key bbox[1], bbox[0] of a block succeeds
(step2_reorder.py line 44): the bbox key must exist and hold at least two
entries, else sorted() raises KeyError or IndexError. -/
def blockKeyOk (b : TextBlock) : Bool :=
  match b.bbox with
  | some l => 2 ≤ l.length
  | none => false

/-- Sort key (y0, x0) of a well-formed block. -/
def blockKey (b : TextBlock) : Rat × Rat :=
  match b.bbox with
  | some l => (l.getD 1 0, l.getD 0 0)
  | none => (0, 0)

/-- Python tuple comparison of two rational pairs. -/
def ratPairLe (p q : Rat × Rat) : Bool :=
  if p.1 = q.1 then decide (p.2 ≤ q.2) else decide (p.1 < q.1)

/-- Comparison of blocks by their (y0, x0) key. -/
def blockLe (a b : TextBlock) : Bool := ratPairLe (blockKey a) (blockKey b)

/-- Order in which a page's blocks are emitted (step2_reorder.py lines
43-49): the stable sort by (y0, x0) when every key computation succeeds,
and the original order of the whole page when any block is malformed (the
except branch). -/
def pageOrder (blocks : List TextBlock) : List TextBlock :=
  if blocks.all blockKeyOk then pySort blockLe blocks else blocks

/-- Decimal page label of the marker line, N/A when page_number is
missing. -/
def pageNumStr : Option Nat → List Char
  | some n => natDigits n
  | none => "N/A".data

/-- Text contributed by one page (step2_reorder.py lines 34-56): pages
with no text blocks are skipped entirely (no marker), otherwise the
marker line, the block texts joined by newlines, and a blank line. -/
def reorderPage (pn : Option Nat) (blocks : List TextBlock) : List Char :=
  if blocks = [] then []
  else
    "--- Page ".data ++ pageNumStr pn ++ " ---\n".data ++
      (List.intercalate ['\n'] ((pageOrder blocks).map (fun b => b.text))) ++ "\n\n".data

/-- Model of reorder_text (step2_reorder.py): the concatenated reordered
text of all pages, in page order. -/
def reorder_text (pages : List RawPageBlocks) : List Char :=
  (pages.map (fun p => reorderPage p.page_number p.text_blocks)).flatten

/-- Malformed block (no bbox) with distinctive text, concrete input
material. -/
def exBlockBad : TextBlock := { bbox := none, text := "BAD".data }

/-- Well-formed block at the top of the page, concrete input material. -/
def exBlockGood : TextBlock := { bbox := some [0, 1, 10, 2], text := "GOOD".data }

/-- Well-formed block lower on the page, concrete input material. -/
def exBlockLow : TextBlock := { bbox := some [0, 5, 10, 6], text := "LOW".data }

/-- Image dict of the step1 raw-data artifact, with the fields steps 4c and
4d read: bbox (absent key gets the 0,0,0,0 default in 4c), associated
caption text (absent key reads as empty), extracted bitmap path, and
source page (absent key triggers the fallback in 4d).  bbox lists in real
artifacts always hold four entries. -/
structure RawImage where
  bbox : Option (List Rat)
  associated_text : List Char
  image_path : Option (List Char)
  source_page : Option Int
deriving DecidableEq, Repr

/-- Page of the step1 raw-data artifact as read by steps 4c and 4d: the
page number (none models the N/A placeholder) and the image list. -/
structure RawPage where
  page_number : Option Int
  images : List RawImage
deriving DecidableEq, Repr

/-- Vertical position used to pre-order images on a page
(step4c_map_images.py line 39). -/
def imgY (img : RawImage) : Rat := (img.bbox.getD [0, 0, 0, 0]).getD 1 0

/-- Comparison of images by their y coordinate. -/
def imgYLe (a b : RawImage) : Bool := decide (imgY a ≤ imgY b)

/-- Ordering of mapping entries by image path (step4c line 69 indexes the
path directly, entries always carry one; step4d line 77 reads it with an
empty default). -/
def imgInfoPathLe (a b : ImgInfo) : Bool :=
  strLeB (a.image_path.getD []) (b.image_path.getD [])

/-- Uppercase letter class of the caption pattern of step4c line 30: ASCII
A-Z or fullwidth A-Z. -/
def isUpperCaption (c : Char) : Bool :=
  (65 ≤ c.toNat && c.toNat ≤ 90) || (65313 ≤ c.toNat && c.toNat ≤ 65338)

/-- Opening parenthesis class of the caption pattern (halfwidth or
fullwidth). -/
def isOpenParen (c : Char) : Bool := c = '(' || c = '（'

/-- Closing parenthesis class of the caption pattern. -/
def isCloseParen (c : Char) : Bool := c = ')' || c = '）'

/-- Caption pattern of step4c line 30 tried at one position: an opening
parenthesis, an uppercase letter, optional spaces, the word 問題, optional
spaces, digits, optional spaces, a closing parenthesis.  Returns the
letter, the digit group as matched, and the rest of the text after the
match.  The greedy runs of the original regex never backtrack here because
each run's character class is disjoint from what must follow it. -/
def matchCaptionAt : List Char → Option (Char × List Char × List Char)
  | c1 :: c2 :: rest =>
    if isOpenParen c1 && isUpperCaption c2 then
      match rest.dropWhile isPySpace with
      | '問' :: '題' :: r2 =>
        let r3 := r2.dropWhile isPySpace
        match r3.takeWhile isDigitC with
        | [] => none
        | ds =>
          match (r3.dropWhile isDigitC).dropWhile isPySpace with
          | c3 :: r5 => if isCloseParen c3 then some (c2, ds, r5) else none
          | [] => none
      | _ => none
    else none
  | _ => none

/-- The findall scan of step4c line 48: repeatedly take the leftmost
caption match and continue after it.  The fuel equals the text length; the
text shrinks by at least one character per step, so the fuel never runs
out before the text does. -/
def findCaptionsAux : Nat → List Char → List (Char × List Char)
  | 0, _ => []
  | _, [] => []
  | fuel + 1, c :: cs =>
    match matchCaptionAt (c :: cs) with
    | some (L, ds, rest) => (L, ds) :: findCaptionsAux fuel rest
    | none => findCaptionsAux fuel cs

/-- All caption matches of a text, in order. -/
def findCaptions (s : List Char) : List (Char × List Char) :=
  findCaptionsAux s.length s

/-- Append an entry to the per-key list unless an entry with the same
image_path is already there (step4c lines 54-62, together with the
setdefault-style key creation). -/
def appendIfNewPath (l : List ImgInfo) (e : ImgInfo) : List ImgInfo :=
  if l.any (fun img => img.image_path = e.image_path) then l else l ++ [e]

/-- Insertion-ordered dict update for step4c: extend the value of an
existing key in place, or append the new key at the end. -/
def dictAppendEntry : List (List Char × List ImgInfo) → List Char → ImgInfo →
    List (List Char × List ImgInfo)
  | [], k, e => [(k, appendIfNewPath [] e)]
  | (k2, v) :: rest, k, e =>
    if k = k2 then (k2, appendIfNewPath v e) :: rest
    else (k2, v) :: dictAppendEntry rest k e

/-- Handling of one image in step4c lines 41-64: skip images with empty
caption text or a falsy path; skip images whose caption parses to no
match (they are warn-reported); otherwise take the LAST caption match,
build the join key letter-dash-digits, and append the entry. -/
def collectImage (pn : Option Int) (acc : List (List Char × List ImgInfo))
    (img : RawImage) : List (List Char × List ImgInfo) :=
  if img.associated_text = [] then acc
  else
    match img.image_path with
    | none => acc
    | some ps =>
      if ps = [] then acc
      else
        match (findCaptions img.associated_text).getLast? with
        | none => acc
        | some (L, ds) =>
          dictAppendEntry acc (L :: '-' :: ds)
            { image_path := some ps, source_page := pn,
              source_text := img.associated_text, image_id := none }

/-- Sequential image ids A, B, C, ... assigned by position (step4c lines
71-72, step4d lines 78-79): position i gets the character at code point
65 + i. -/
def assignIds : Nat → List ImgInfo → List ImgInfo
  | _, [] => []
  | i, img :: rest =>
    { img with image_id := some [Char.ofNat (65 + i)] } :: assignIds (i + 1) rest

/-- Phase 2 of step4c (lines 66-74): sort every value list by image path
and assign sequential ids in that order. -/
def finalizeMapping (m : List (List Char × List ImgInfo)) :
    List (List Char × List ImgInfo) :=
  m.map (fun kv => (kv.1, assignIds 0 (pySort imgInfoPathLe kv.2)))

/-- Model of map_images_to_questions (step4c_map_images.py): images of
each page are pre-sorted top to bottom, folded into the mapping dict, and
the finished dict gets per-key path-sorted lists with sequential ids. -/
def map_images_to_questions (pages : List RawPage) :
    List (List Char × List ImgInfo) :=
  finalizeMapping
    (pages.foldl
      (fun acc page => (pySort imgYLe page.images).foldl (collectImage page.page_number) acc)
      [])

/-- Consecutive chunk record of the step3b artifact (the constant type tag
is omitted; step4d reads only question_numbers). -/
structure Chunk where
  source_pdf : List Char
  question_numbers : List Nat
  text : List Char
deriving DecidableEq, Repr

/-- Stem pattern of create_consecutive_join_key tried at one position: a
dash, exactly two digits, an ASCII letter, an underscore; returns the
letter. -/
def stemBlockAt : List Char → Option Char
  | '-' :: d1 :: d2 :: c :: u :: _ =>
    if isDigitC d1 && isDigitC d2 && isAsciiAlpha c && u = '_' then some c
    else none
  | _ => none

/-- Leftmost stem-pattern match (the re.search of
step4d_map_consecutive_images.py line 12). -/
def findStemBlock : List Char → Option Char
  | [] => none
  | c :: cs =>
    match stemBlockAt (c :: cs) with
    | some L => some L
    | none => findStemBlock cs

/-- ASCII uppercase conversion of the matched block letter. -/
def pyUpperChar (c : Char) : Char :=
  if 97 ≤ c.toNat && c.toNat ≤ 122 then Char.ofNat (c.toNat - 32) else c

/-- Model of create_consecutive_join_key (step4d lines 7-18): the
uppercased letter of the first stem-pattern match, or the literal X when
the stem has no match, joined with the start and end numbers. -/
def create_consecutive_join_key (pdf_stem : List Char) (start_q end_q : Nat) :
    List Char :=
  let block := match findStemBlock pdf_stem with
    | some c => [pyUpperChar c]
    | none => ['X']
  block ++ ('-' :: natDigits start_q) ++ ('-' :: natDigits end_q)

/-- Separator class of the range pattern of step4d line 44: the wave dash,
the ideographic comma, the ASCII comma, or whitespace. -/
def isRangeSep (c : Char) : Bool :=
  c = '〜' || c = '、' || c = ',' || isPySpace c

/-- Range pattern of step4d line 44 tried at one position: the word 問題,
an optional single whitespace, digits, one or more separator characters,
digits.  The greedy pieces of the original regex never backtrack here
because each class is disjoint from what must follow it (a space consumed
by the optional whitespace that is not followed by a digit also fails the
original pattern, since the next regex atom is a digit). -/
def matchRangeAt : List Char → Option (Nat × Nat)
  | '問' :: '題' :: r =>
    let r1 := match r with
      | c :: rest => if isPySpace c then rest else r
      | [] => r
    match r1.takeWhile isDigitC with
    | [] => none
    | ds1 =>
      let r2 := r1.dropWhile isDigitC
      match r2.takeWhile isRangeSep with
      | [] => none
      | _ =>
        match (r2.dropWhile isRangeSep).takeWhile isDigitC with
        | [] => none
        | ds2 => some (digitsVal ds1, digitsVal ds2)
  | _ => none

/-- Leftmost range-pattern match (the pattern.search of step4d line 64). -/
def searchRange : List Char → Option (Nat × Nat)
  | [] => none
  | c :: cs =>
    match matchRangeAt (c :: cs) with
    | some v => some v
    | none => searchRange cs

/-- Insertion-ordered dict assignment for step4d line 81: replace the
value of an existing key in place, or append the new key at the end. -/
def dictSet : List (List Char × List ImgInfo) → List Char → List ImgInfo →
    List (List Char × List ImgInfo)
  | [], k, v => [(k, v)]
  | (k2, v2) :: rest, k, v =>
    if k = k2 then (k2, v) :: rest else (k2, v2) :: dictSet rest k v

/-- Fallback source page of step4d line 71: the loop variable page is
stale after the image-collection loop, so the fallback is the index of the
first page equal to the LAST page, plus one (zero when there are no pages,
in which case there are no images and the fallback is never read). -/
def fallbackSourcePage (pages : List RawPage) : Int :=
  match pages.getLast? with
  | some lp => (pages.findIdx (fun p => p = lp) : Int) + 1
  | none => 0

/-- Handling of one chunk in step4d lines 52-82: chunks with fewer than
two question numbers are skipped; otherwise every image whose caption
range equals the chunk's first and last numbers is collected, and a nonempty
collection is path-sorted, given sequential ids, and stored under the
derived consecutive join key. -/
def collectChunk (pages : List RawPage) (pdf_stem : List Char)
    (acc : List (List Char × List ImgInfo)) (chunk : Chunk) :
    List (List Char × List ImgInfo) :=
  if chunk.question_numbers.isEmpty || chunk.question_numbers.length < 2 then acc
  else
    let start_q := chunk.question_numbers.headD 0
    let end_q := chunk.question_numbers.getLastD 0
    let join_key := create_consecutive_join_key pdf_stem start_q end_q
    let all_images := (pages.map (fun p => p.images)).flatten
    let matched := all_images.filterMap (fun img =>
      match searchRange img.associated_text with
      | some (a, b) =>
        if a = start_q && b = end_q then
          some { image_path := img.image_path,
                 source_page := some (img.source_page.getD (fallbackSourcePage pages)),
                 source_text := img.associated_text,
                 image_id := none : ImgInfo }
        else none
      | none => none)
    if matched.isEmpty then acc
    else dictSet acc join_key (assignIds 0 (pySort imgInfoPathLe matched))

/-- Model of map_consecutive_images (step4d_map_consecutive_images.py) on
the parsed artifacts: fold every chunk into the mapping dict. -/
def map_consecutive_images (pages : List RawPage) (chunks : List Chunk)
    (pdf_stem : List Char) : List (List Char × List ImgInfo) :=
  chunks.foldl (collectChunk pages pdf_stem) []

/-- Property of a finished per-key image list: non-decreasing in path, and
the id at position j is the letter at code point 65 + j. -/
def goodList (l : List ImgInfo) : Prop :=
  (l.map (fun e => e.image_path)).Pairwise
    (fun a b => strLeB (a.getD []) (b.getD []) = true) ∧
  ∀ j (hj : j < l.length), (l.get ⟨j, hj⟩).image_id = some [Char.ofNat (65 + j)]

/-- No path occurs twice in a per-key image list. -/
def pathsNodup (l : List ImgInfo) : Prop :=
  (l.map (fun e => e.image_path)).Nodup

/-- Consecutive chunk for questions 60 to 62, concrete input material. -/
def exChunk6062 : Chunk :=
  { source_pdf := "s.pdf".data, question_numbers := [60, 61, 62], text := "t".data }

/-- Consecutive chunk with a single question number, concrete input
material. -/
def exChunkShort : Chunk :=
  { source_pdf := "s.pdf".data, question_numbers := [60], text := "t".data }

/-- Raw image with a range caption and path a.webp, concrete input
material. -/
def exImgDupA : RawImage :=
  { bbox := none, associated_text := "問題60〜62".data,
    image_path := some "a.webp".data, source_page := some 1 }

/-- Expected first mapping entry for the duplicated image. -/
def exInfoDupA : ImgInfo :=
  { image_path := some "a.webp".data, source_page := some 1,
    source_text := "問題60〜62".data, image_id := some "A".data }

/-- Expected second mapping entry for the duplicated image. -/
def exInfoDupB : ImgInfo :=
  { image_path := some "a.webp".data, source_page := some 1,
    source_text := "問題60〜62".data, image_id := some "B".data }

/-- Raw image b.webp with single-question caption, concrete input
material. -/
def exImgB4c : RawImage :=
  { bbox := some [0, 3, 1, 4], associated_text := "(A 問題20)".data,
    image_path := some "b.webp".data, source_page := none }

/-- Raw image a.webp with single-question caption, concrete input
material. -/
def exImgA4c : RawImage :=
  { bbox := some [0, 1, 1, 2], associated_text := "(A 問題20)".data,
    image_path := some "a.webp".data, source_page := none }

/-- Raw image c.webp with single-question caption, concrete input
material. -/
def exImgC4c : RawImage :=
  { bbox := some [0, 2, 1, 3], associated_text := "(A 問題20)".data,
    image_path := some "c.webp".data, source_page := none }

/-- Page holding the three caption images in path order b, a, c. -/
def exPageBAC : RawPage :=
  { page_number := some 1, images := [exImgB4c, exImgA4c, exImgC4c] }

/-- Expected single-mode entry: a.webp gets id A. -/
def exInfoA20A : ImgInfo :=
  { image_path := some "a.webp".data, source_page := some 1,
    source_text := "(A 問題20)".data, image_id := some "A".data }

/-- Expected single-mode entry: b.webp gets id B. -/
def exInfoA20B : ImgInfo :=
  { image_path := some "b.webp".data, source_page := some 1,
    source_text := "(A 問題20)".data, image_id := some "B".data }

/-- Expected single-mode entry: c.webp gets id C. -/
def exInfoA20C : ImgInfo :=
  { image_path := some "c.webp".data, source_page := some 1,
    source_text := "(A 問題20)".data, image_id := some "C".data }

/-- Raw image b.webp with a range caption, concrete input material. -/
def exImgB4d : RawImage :=
  { bbox := none, associated_text := "問題60〜62".data,
    image_path := some "b.webp".data, source_page := some 1 }

/-- Raw image a.webp with a range caption, concrete input material. -/
def exImgA4d : RawImage :=
  { bbox := none, associated_text := "問題60〜62".data,
    image_path := some "a.webp".data, source_page := some 1 }

/-- Raw image c.webp with a range caption, concrete input material. -/
def exImgC4d : RawImage :=
  { bbox := none, associated_text := "問題60〜62".data,
    image_path := some "c.webp".data, source_page := some 1 }

/-- Page holding the three range-caption images in path order b, a, c. -/
def exPage4dBAC : RawPage :=
  { page_number := some 1, images := [exImgB4d, exImgA4d, exImgC4d] }

/-- Expected consecutive-mode entry: a.webp gets id A. -/
def exInfoC60A : ImgInfo :=
  { image_path := some "a.webp".data, source_page := some 1,
    source_text := "問題60〜62".data, image_id := some "A".data }

/-- Expected consecutive-mode entry: b.webp gets id B. -/
def exInfoC60B : ImgInfo :=
  { image_path := some "b.webp".data, source_page := some 1,
    source_text := "問題60〜62".data, image_id := some "B".data }

/-- Expected consecutive-mode entry: c.webp gets id C. -/
def exInfoC60C : ImgInfo :=
  { image_path := some "c.webp".data, source_page := some 1,
    source_text := "問題60〜62".data, image_id := some "C".data }

/-- Separator class of the trigger pattern of step3b_chunk_consecutive.py
line 46: the ideographic comma U+3001 or the fullwidth tilde U+FF5E. -/
def isTriggerSep (c : Char) : Bool := c.toNat = 12289 || c.toNat = 65374

/-- Literal head of the trigger sentence. -/
def triggerHead : List Char := "次の文を読み、".data

/-- Literal tail of the trigger sentence (a halfwidth space, then the
closing words). -/
def triggerTail : List Char := " の問いに答えよ。".data

/-- Trigger pattern of step3b line 46 tried at one position: the literal
head, digits, one separator, digits, the literal tail.  Returns the two
captured numbers and the length of the whole match.  The greedy digit
runs of the original regex never backtrack because the characters that
must follow them are not digits. -/
def matchTriggerAt (l : List Char) : Option (Nat × Nat × Nat) :=
  if triggerHead.isPrefixOf l then
    let r := l.drop triggerHead.length
    match r.takeWhile isDigitC with
    | [] => none
    | ds1 =>
      match r.dropWhile isDigitC with
      | c :: r3 =>
        if isTriggerSep c then
          match r3.takeWhile isDigitC with
          | [] => none
          | ds2 =>
            if triggerTail.isPrefixOf (r3.dropWhile isDigitC) then
              some (digitsVal ds1, digitsVal ds2,
                triggerHead.length + ds1.length + 1 + ds2.length + triggerTail.length)
            else none
        else none
      | [] => none
  else none

/-- The finditer scan of step3b line 48: positions and captures of the
non-overlapping trigger matches, scanning left to right and continuing
after each match.  The fuel equals the text length; every step consumes at
least one character. -/
def findTriggersAux : Nat → Nat → List Char → List (Nat × Nat × Nat)
  | 0, _, _ => []
  | _, _, [] => []
  | fuel + 1, pos, c :: cs =>
    match matchTriggerAt (c :: cs) with
    | some (n, m, len) =>
      (pos, n, m) :: findTriggersAux fuel (pos + len) (List.drop len (c :: cs))
    | none => findTriggersAux fuel (pos + 1) cs

/-- All trigger matches of a text with their start positions. -/
def findTriggers (text : List Char) : List (Nat × Nat × Nat) :=
  findTriggersAux text.length 0 text

/-- Page-marker pattern at one position: the literal opening, digits, the
literal closing with its newline; returns the length consumed. -/
def pageMarkerAt (l : List Char) : Option Nat :=
  if ("--- Page ".data).isPrefixOf l then
    let r := l.drop 9
    match r.takeWhile isDigitC with
    | [] => none
    | ds =>
      if (" ---\n".data).isPrefixOf (r.dropWhile isDigitC) then
        some (9 + ds.length + 5)
      else none
  else none

/-- Decimal digits of the question number followed by the ideographic
space, as the next-question pattern of step3b line 78 requires. -/
def numSpaceAt (qn : Nat) (l : List Char) : Bool :=
  (natDigits qn ++ [Char.ofNat 12288]).isPrefixOf l

/-- Next-question pattern of step3b line 78 tried at one position: a page
marker or a newline, then the decimal number, then the ideographic
space. -/
def nextQAt (qn : Nat) (l : List Char) : Bool :=
  (match pageMarkerAt l with
   | some len => numSpaceAt qn (l.drop len)
   | none => false) ||
  (match l with
   | '\n' :: r => numSpaceAt qn r
   | _ => false)

/-- Index of the first suffix satisfying the predicate: the re.search of
step3b line 79 returns the leftmost match position. -/
def firstIdx (p : List Char → Bool) : List Char → Option Nat
  | [] => if p [] then some 0 else none
  | c :: cs => if p (c :: cs) then some 0 else (firstIdx p cs).map (· + 1)

/-- Removal of every page-marker occurrence (the re.sub of step3b line
87), scanning left to right with fuel equal to the length. -/
def removePageMarkersAux : Nat → List Char → List Char
  | 0, l => l
  | _, [] => []
  | fuel + 1, c :: cs =>
    match pageMarkerAt (c :: cs) with
    | some len => removePageMarkersAux fuel (List.drop len (c :: cs))
    | none => c :: removePageMarkersAux fuel cs

/-- All page markers removed from a text. -/
def removePageMarkers (l : List Char) : List Char :=
  removePageMarkersAux l.length l

/-- Candidate spans of step3b lines 57-70: each trigger spans from its own
start to the start of the next trigger, or to the end of the text for the
last trigger. -/
def spansOf (textLen : Nat) : List (Nat × Nat × Nat) → List (Nat × Nat × Nat × Nat)
  | [] => []
  | (p, n, m) :: rest =>
    let e := match rest with
      | (p2, _, _) :: _ => p2
      | [] => textLen
    (p, e, n, m) :: spansOf textLen rest

/-- Processing of one candidate span (step3b lines 70-96): truncate at the
first next-question match when one exists inside the span, strip page
markers and surrounding whitespace, and record the inclusive question
range. -/
def processSpan (pdf_stem : List Char) (text : List Char) :
    Nat × Nat × Nat × Nat → Chunk
  | (p, e, n, m) =>
    let current := (text.drop p).take (e - p)
    let final := match firstIdx (nextQAt (m + 1)) current with
      | some j => current.take j
      | none => current
    { source_pdf := pdf_stem ++ ".pdf".data,
      question_numbers := List.range' n (m + 1 - n),
      text := pyStrip (removePageMarkers final) }

/-- Model of the chunking logic of chunk_consecutive_questions
(step3b_chunk_consecutive.py lines 44-97) on the text after the fixed
boilerplate-removal substitutions of lines 29-41: every trigger yields one
chunk from its candidate span. -/
def chunk_consecutive_questions (pdf_stem : List Char) (text : List Char) : List Chunk :=
  (spansOf text.length (findTriggers text)).map (processSpan pdf_stem text)

/-- Reordered example text: page marker, the trigger sentence for 60 to
62, the case text with sub-questions 60 to 62, then the single question
63 on its own line (the separator is U+FF5E, the space after the number
U+3000, as the source patterns require). -/
def exC6Text : List Char :=
  "--- Page 1 ---\n".data ++ "次の文を読み、60".data ++ [Char.ofNat 65374] ++
    "62 の問いに答えよ。\ncase\n60".data ++ [Char.ofNat 12288] ++ "q60\n61".data ++
    [Char.ofNat 12288] ++ "q61\n62".data ++ [Char.ofNat 12288] ++ "q62\n63".data ++
    [Char.ofNat 12288] ++ "q63tail".data

/-- Expected chunk of the example text: questions 60 to 62, the span cut
just before the line of question 63. -/
def exC6Chunk : Chunk :=
  { source_pdf := "st.pdf".data,
    question_numbers := [60, 61, 62],
    text := "次の文を読み、60".data ++ [Char.ofNat 65374] ++
      "62 の問いに答えよ。\ncase\n60".data ++ [Char.ofNat 12288] ++ "q60\n61".data ++
      [Char.ofNat 12288] ++ "q61\n62".data ++ [Char.ofNat 12288] ++ "q62".data }

/-- Text fragment whose fourth character opens the next-question line,
concrete witness material. -/
def exC6Current : List Char := "abc\n63".data ++ [Char.ofNat 12288] ++ "x".data

theorem strLeB_total : ∀ a b : List Char, strLeB a b || strLeB b a
  | [], _ => by simp [strLeB]
  | _ :: _, [] => by simp [strLeB]
  | a :: as, b :: bs => by
    simp only [strLeB]
    rcases Nat.lt_trichotomy a.toNat b.toNat with h | h | h
    · simp [h]
    · simp [h, Nat.lt_irrefl, strLeB_total as bs]
    · simp [h, Nat.lt_asymm h]

theorem strLeB_trans : ∀ a b c : List Char,
    strLeB a b = true → strLeB b c = true → strLeB a c = true
  | [], _, _, _, _ => by simp [strLeB]
  | a :: as, [], _, h, _ => by simp [strLeB] at h
  | a :: as, b :: bs, [], _, h => by simp [strLeB] at h
  | a :: as, b :: bs, c :: cs, h1, h2 => by
    simp only [strLeB] at h1 h2 ⊢
    rcases Nat.lt_trichotomy a.toNat b.toNat with hab | hab | hab
    · rcases Nat.lt_trichotomy b.toNat c.toNat with hbc | hbc | hbc
      · simp [Nat.lt_trans hab hbc]
      · simp [hbc ▸ hab]
      · simp [hbc, Nat.lt_asymm hbc] at h2
    · rcases Nat.lt_trichotomy b.toNat c.toNat with hbc | hbc | hbc
      · simp [hab ▸ hbc]
      · simp only [hab, hbc, Nat.lt_irrefl, if_false] at h1 h2 ⊢
        exact strLeB_trans as bs cs h1 h2
      · simp [hbc, Nat.lt_asymm hbc] at h2
    · simp [hab, Nat.lt_asymm hab] at h1

theorem strLeB_antisymm : ∀ a b : List Char,
    strLeB a b = true → strLeB b a = true → a = b
  | [], [], _, _ => rfl
  | [], _ :: _, _, h => by simp [strLeB] at h
  | _ :: _, [], h, _ => by simp [strLeB] at h
  | a :: as, b :: bs, h1, h2 => by
    simp only [strLeB] at h1 h2
    rcases Nat.lt_trichotomy a.toNat b.toNat with hab | hab | hab
    · simp [hab, Nat.lt_asymm hab] at h2
    · have hc : a = b := Char.eq_of_val_eq (UInt32.toNat.inj hab)
      simp only [hab, Nat.lt_irrefl, if_false] at h1 h2
      rw [hc, strLeB_antisymm as bs h1 h2]
    · simp [hab, Nat.lt_asymm hab] at h1

theorem insOrdered_perm (lt : α → α → Bool) (x : α) :
    ∀ l : List α, (insOrdered lt x l).Perm (x :: l)
  | [] => List.Perm.refl _
  | y :: ys => by
    simp only [insOrdered]
    split
    · exact List.Perm.refl _
    · exact ((insOrdered_perm lt x ys).cons y).trans (List.Perm.swap x y ys)

theorem pySortAux_perm (lt : α → α → Bool) :
    ∀ xs acc : List α, (pySortAux lt acc xs).Perm (acc ++ xs)
  | [], acc => by simp [pySortAux]
  | x :: xs, acc => by
    simp only [pySortAux]
    refine (pySortAux_perm lt xs (insOrdered lt x acc)).trans ?_
    refine (List.Perm.append_right xs (insOrdered_perm lt x acc)).trans ?_
    exact List.perm_middle.symm

theorem pySort_perm (le : α → α → Bool) (l : List α) : (pySort le l).Perm l :=
  pySortAux_perm _ l []

theorem pySort_mem (le : α → α → Bool) (l : List α) (x : α) :
    x ∈ pySort le l ↔ x ∈ l :=
  (pySort_perm le l).mem_iff

theorem insOrdered_pairwise (le : α → α → Bool)
    (htr : ∀ a b c, le a b = true → le b c = true → le a c = true)
    (x : α) : ∀ l : List α,
    l.Pairwise (fun a b => (le b a && !(le a b)) = false) →
    (insOrdered (fun a b => le a b && !(le b a)) x l).Pairwise
      (fun a b => (le b a && !(le a b)) = false)
  | [], _ => by simp [insOrdered]
  | y :: ys, h => by
    simp only [insOrdered]
    rcases List.pairwise_cons.mp h with ⟨hy, hys⟩
    split
    · rename_i hlt
      simp only [Bool.and_eq_true, Bool.not_eq_eq_eq_not, Bool.not_true] at hlt
      refine List.pairwise_cons.mpr ⟨?_, h⟩
      intro z hz
      rcases hz with _ | hz
      · simp [hlt.1, hlt.2]
      · rename_i hz
        have hyz := hy z hz
        simp only [Bool.and_eq_false_iff, Bool.not_eq_false] at hyz ⊢
        rcases hyz with hyz | hyz
        · by_cases hzx : le z x = true
          · have hzy : le z y = true := htr z x y hzx hlt.1
            simp [hzy] at hyz
          · left
            simpa using hzx
        · left
          by_cases hzx : le z x = true
          · have hyx : le y x = true := htr y z x (by simpa using hyz) hzx
            simp [hyx] at hlt
          · simpa using hzx
    · rename_i hnlt
      refine List.pairwise_cons.mpr ⟨?_, insOrdered_pairwise le htr x ys hys⟩
      intro z hz
      have hz2 := (insOrdered_perm _ x ys).mem_iff.mp hz
      rcases List.mem_cons.mp hz2 with rfl | hz2
      · simpa using hnlt
      · exact hy z hz2

theorem pySortAux_pairwise (le : α → α → Bool)
    (htr : ∀ a b c, le a b = true → le b c = true → le a c = true) :
    ∀ (xs acc : List α),
    acc.Pairwise (fun a b => (le b a && !(le a b)) = false) →
    (pySortAux (fun a b => le a b && !(le b a)) acc xs).Pairwise
      (fun a b => (le b a && !(le a b)) = false)
  | [], _, h => h
  | x :: xs, acc, h =>
    pySortAux_pairwise le htr xs _ (insOrdered_pairwise le htr x acc h)

theorem pySort_pairwise (le : α → α → Bool)
    (htr : ∀ a b c, le a b = true → le b c = true → le a c = true)
    (hto : ∀ a b, le a b || le b a)
    (l : List α) : (pySort le l).Pairwise (fun a b => le a b = true) := by
  have h := pySortAux_pairwise le htr l [] (List.Pairwise.nil)
  refine h.imp ?_
  intro a b hab
  simp only [Bool.and_eq_false_iff, Bool.not_eq_false] at hab
  rcases hab with hab | hab
  · have := hto a b
    simp only [Bool.or_eq_true] at this
    rcases this with h2 | h2
    · exact h2
    · simp [h2] at hab
  · simpa using hab

theorem pySort_countP (le : α → α → Bool) (l : List α) (p : α → Bool) :
    (pySort le l).countP p = l.countP p :=
  (pySort_perm le l).countP_eq p

theorem integrateInto_problem_number (p : Problem)
    (ak : List (List Char × List (List Char)))
    (im : List (List Char × List ImgInfo)) :
    (_integrate_data_into_problem p ak im).problem_number = p.problem_number := by
  unfold _integrate_data_into_problem
  cases p.join_key with
  | none => rfl
  | some jk =>
    by_cases he : jk = []
    · simp [he]
    · simp only [he, if_false]
      cases dictLookup jk ak <;> cases dictLookup jk im <;> simp

theorem integrateInto_join_key (p : Problem)
    (ak : List (List Char × List (List Char)))
    (im : List (List Char × List ImgInfo)) :
    (_integrate_data_into_problem p ak im).join_key = p.join_key := by
  unfold _integrate_data_into_problem
  cases hj : p.join_key with
  | none => exact hj
  | some jk =>
    by_cases he : jk = []
    · simpa [he] using hj
    · simp only [he, if_false]
      cases dictLookup jk ak <;> cases dictLookup jk im <;> simp [hj]

theorem keepSingle_iff (ns : List Int) (p : Problem) :
    keepSingle ns p = true ↔ ∃ n, p.problem_number = some n ∧ n ∉ ns := by
  unfold keepSingle
  cases p.problem_number <;> simp

theorem mem_consecNumbers (cf : List (List ConsecBlock)) (b0 : ConsecBlock)
    (q : Problem) (n : Int) (hb : b0 ∈ cf.flatten) (hq : q ∈ b0.sub_questions)
    (hn : q.problem_number = some n) : n ∈ consecNumbers cf := by
  unfold consecNumbers
  exact List.mem_flatten.mpr
    ⟨b0.sub_questions.filterMap (fun q => q.problem_number),
      List.mem_map.mpr ⟨b0, hb, rfl⟩, List.mem_filterMap.mpr ⟨q, hq, hn⟩⟩

theorem mem_integrated_single (cf : List (List ConsecBlock))
    (sf : List (List Problem)) (ak : List (List Char × List (List Char)))
    (imf : List (List (List Char × List ImgInfo)))
    (i : Option (List Char)) (p : Problem)
    (h : IntegratedProblem.single i p ∈ integratedOf cf sf ak imf) :
    ∃ p0, p = _integrate_data_into_problem p0 ak (mergeMappings imf) ∧ i = p0.id ∧
      p0 ∈ sf.flatten ∧ keepSingle (consecNumbers cf) p0 = true := by
  unfold integratedOf at h
  rcases List.mem_map.mp h with ⟨orig, horig, he⟩
  cases orig with
  | single i0 p0 =>
    simp only [integrateRecord] at he
    injection he with h1 h2
    unfold allProblemsOf at horig
    rcases List.mem_append.mp horig with hm | hm
    · rcases List.mem_map.mp hm with ⟨b, _, hb⟩
      exact absurd hb (by simp)
    · rcases List.mem_map.mp hm with ⟨p1, hp1, he2⟩
      injection he2 with h3 h4
      rcases List.mem_filter.mp hp1 with ⟨hmem, hkeep⟩
      subst h4
      exact ⟨p1, h2.symm, h1.symm.trans h3.symm, hmem, hkeep⟩
  | consecutive b =>
    simp only [integrateRecord] at he
    exact absurd he (by simp)

theorem mem_integrated_consec (cf : List (List ConsecBlock))
    (sf : List (List Problem)) (ak : List (List Char × List (List Char)))
    (imf : List (List (List Char × List ImgInfo))) (b : ConsecBlock)
    (h : IntegratedProblem.consecutive b ∈ integratedOf cf sf ak imf) :
    ∃ b0, b0 ∈ cf.flatten ∧ b.join_key = b0.join_key ∧
      b.sub_questions =
        b0.sub_questions.map (fun q => _integrate_data_into_problem q ak (mergeMappings imf)) ∧
      b.case_presentation = _integrate_data_into_problem b0.case_presentation [] (mergeMappings imf) := by
  unfold integratedOf at h
  rcases List.mem_map.mp h with ⟨orig, horig, he⟩
  cases orig with
  | single i0 p0 =>
    simp only [integrateRecord] at he
    exact absurd he (by simp)
  | consecutive b0 =>
    simp only [integrateRecord] at he
    injection he with h1
    unfold allProblemsOf at horig
    rcases List.mem_append.mp horig with hm | hm
    · rcases List.mem_map.mp hm with ⟨b1, hb1, he2⟩
      injection he2 with h3
      subst h3
      exact ⟨b1, hb1, by rw [← h1], by rw [← h1], by rw [← h1]⟩
    · rcases List.mem_map.mp hm with ⟨p1, _, he2⟩
      exact absurd he2 (by simp)

theorem integrate_some_elim (cf : List (List ConsecBlock))
    (sf : List (List Problem)) (ak : List (List Char × List (List Char)))
    (imf : List (List (List Char × List ImgInfo)))
    (recs : List IntegratedProblem) (unm : List (List Char))
    (h : integrate_answers cf sf ak imf = some (recs, unm)) :
    recs = pySort recKeyLe (integratedOf cf sf ak imf) ∧
      unm = unmatchedOf cf sf ak imf := by
  unfold integrate_answers at h
  split at h
  · exact absurd h (by simp)
  · simp only [Option.some.injEq, Prod.mk.injEq] at h
    exact ⟨h.1.symm, h.2.symm⟩

/-- C1 counterexample: the claim says a single QuestionRecord with no
problem_number is kept, but the load filter of step5b (line 108) requires
problem_number to be present, so such a record is discarded: with two
single records, one lacking a problem_number, only the other reaches the
integrated output. -/
theorem C1_counterexample :
    exProbNoNum.problem_number = none ∧
    integrate_answers [] [[exProbNoNum, exProbA1]] [] [] =
      some ([IntegratedProblem.single (some "q1".data) exProbA1], []) := by decide

/-- C1 (amended): in RecordIntegrationEngine deduplication, every single
QuestionRecord whose problem_number occurs among the sub-question numbers
of any ConsecutiveBlock is discarded, and every single QuestionRecord with
no problem_number is ALSO discarded (not kept, as the claim stated); every
single record in the canonical output therefore carries a problem_number
outside the consecutive sub-question numbers, and the set of
problem_numbers of single records is disjoint from the set of
problem_numbers of sub_questions inside consecutive records. -/
theorem C1_dedupDisjoint : ∀ cf sf ak imf recs unm,
    integrate_answers cf sf ak imf = some (recs, unm) →
    (∀ i p, IntegratedProblem.single i p ∈ recs →
      ∃ n, p.problem_number = some n ∧ n ∉ consecNumbers cf) ∧
    (∀ i p b, IntegratedProblem.single i p ∈ recs →
      IntegratedProblem.consecutive b ∈ recs →
      ∀ n, p.problem_number = some n →
        ∀ q ∈ b.sub_questions, q.problem_number ≠ some n) := by
  intro cf sf ak imf recs unm h
  obtain ⟨hr, _⟩ := integrate_some_elim cf sf ak imf recs unm h
  constructor
  · intro i p hp
    rw [hr] at hp
    obtain ⟨p0, hpe, _, _, hkeep⟩ :=
      mem_integrated_single cf sf ak imf i p ((pySort_mem _ _ _).mp hp)
    obtain ⟨n, hn, hnotin⟩ := (keepSingle_iff _ _).mp hkeep
    exact ⟨n, by rw [hpe, integrateInto_problem_number, hn], hnotin⟩
  · intro i p b hp hb n hpn q hq hqn
    rw [hr] at hp hb
    obtain ⟨p0, hpe, _, _, hkeep⟩ :=
      mem_integrated_single cf sf ak imf i p ((pySort_mem _ _ _).mp hp)
    obtain ⟨n0, hn0, hnotin⟩ := (keepSingle_iff _ _).mp hkeep
    obtain ⟨b0, hb0mem, _, hsubs, _⟩ :=
      mem_integrated_consec cf sf ak imf b ((pySort_mem _ _ _).mp hb)
    rw [hsubs] at hq
    obtain ⟨q0, hq0, hqe⟩ := List.mem_map.mp hq
    have hq0n : q0.problem_number = some n := by
      rw [← integrateInto_problem_number q0 ak (mergeMappings imf), hqe, hqn]
    have hne : n = n0 := by
      have : p0.problem_number = some n := by
        rw [← integrateInto_problem_number p0 ak (mergeMappings imf), ← hpe, hpn]
      rw [this] at hn0
      exact (Option.some.injEq _ _ ▸ hn0).symm ▸ rfl
    exact hnotin (hne ▸ mem_consecNumbers cf b0 q0 n hb0mem hq0 hq0n)

/-- Closed witness for C1_dedupDisjoint at a concrete input. -/
theorem C1_dedupDisjoint_witness :
    (∀ i p, IntegratedProblem.single i p ∈
        [IntegratedProblem.single (some "q1".data) exProbA1] →
      ∃ n, p.problem_number = some n ∧ n ∉ consecNumbers []) ∧
    (∀ i p b, IntegratedProblem.single i p ∈
        [IntegratedProblem.single (some "q1".data) exProbA1] →
      IntegratedProblem.consecutive b ∈
        [IntegratedProblem.single (some "q1".data) exProbA1] →
      ∀ n, p.problem_number = some n →
        ∀ q ∈ b.sub_questions, q.problem_number ≠ some n) :=
  C1_dedupDisjoint [] [[exProbNoNum, exProbA1]] [] []
    [IntegratedProblem.single (some "q1".data) exProbA1] [] (by decide)

/-- C2 counterexample: with tokens 600 and B, not every token parses as a
number (float() fails on B), yet the code normalizes to a numeric value
dict taken from the first token alone, not to a choices dict as the claim
requires. -/
theorem C2_counterexample :
    format_answer_info ["600".data, "B".data] = AnswerInfo.numValue (NumVal.ofInt 600) ∧
    pyFloat "B".data = none := by decide

/-- C2 (amended): for a non-empty token list the normalized answer is a
value/unit dict exactly when the FIRST token parses as a number (the value
coming from that first token, an int when integral), and otherwise a
choices dict with all tokens lowercased in input order; in particular
tokens 600 normalize to value 600 with null unit, and tokens B, E to
choices b, e. -/
theorem C2_firstTokenDispatch :
    (∀ t ts d, pyFloat t = some d →
      format_answer_info (t :: ts) = AnswerInfo.numValue (numValOfDec d)) ∧
    (∀ t ts, pyFloat t = none →
      format_answer_info (t :: ts) = AnswerInfo.choices ((t :: ts).map pyLower)) ∧
    format_answer_info ["600".data] = AnswerInfo.numValue (NumVal.ofInt 600) ∧
    format_answer_info ["B".data, "E".data] = AnswerInfo.choices ["b".data, "e".data] := by
  refine ⟨?_, ?_, by decide, by decide⟩
  · intro t ts d h
    simp [format_answer_info, h]
  · intro t ts h
    simp [format_answer_info, h]

/-- Closed witness for C2_firstTokenDispatch at a concrete input. -/
theorem C2_firstTokenDispatch_witness :
    format_answer_info ["600".data, "700".data] =
      AnswerInfo.numValue (numValOfDec (6, 2)) :=
  C2_firstTokenDispatch.1 "600".data ["700".data] (6, 2) (by decide)

theorem dictLookup_append_ne {α : Type} (k k2 : List Char) (v : α)
    (l : List (List Char × α)) (h : k2 ≠ k) :
    dictLookup k2 (l ++ [(k, v)]) = dictLookup k2 l := by
  induction l with
  | nil => simp [dictLookup, h]
  | cons kv rest ih =>
    cases kv
    simp only [List.cons_append, dictLookup]
    split
    · rfl
    · exact ih

theorem usedKeysOf_integrateRecord (ak : List (List Char × List (List Char)))
    (im : List (List Char × List ImgInfo)) (r : IntegratedProblem) :
    usedKeysOf (integrateRecord ak im r) = usedKeysOf r := by
  cases r with
  | single i p =>
    simp [integrateRecord, usedKeysOf, integrateInto_join_key]
  | consecutive b =>
    simp only [integrateRecord, usedKeysOf, List.map_map]
    refine congrArg₂ (· ++ ·) rfl (congrArg List.flatten ?_)
    refine List.map_congr_left ?_
    intro q _
    simp [Function.comp, integrateInto_join_key]

theorem integrateInto_append_ne (p : Problem)
    (ak : List (List Char × List (List Char)))
    (im : List (List Char × List ImgInfo)) (k : List Char) (v : List (List Char))
    (h : ∀ jk, p.join_key = some jk → jk ≠ [] → jk ≠ k) :
    _integrate_data_into_problem p (ak ++ [(k, v)]) im = _integrate_data_into_problem p ak im := by
  unfold _integrate_data_into_problem
  cases hj : p.join_key with
  | none => rfl
  | some jk =>
    by_cases he : jk = []
    · simp [he]
    · simp only [he, if_false]
      rw [dictLookup_append_ne k jk v ak (h jk hj he)]

theorem integrateRecord_append_ne (r : IntegratedProblem)
    (ak : List (List Char × List (List Char)))
    (im : List (List Char × List ImgInfo)) (k : List Char) (v : List (List Char))
    (h : k ∉ usedKeysOf r) :
    integrateRecord (ak ++ [(k, v)]) im r = integrateRecord ak im r := by
  cases r with
  | single i p =>
    simp only [integrateRecord, IntegratedProblem.single.injEq, true_and]
    apply integrateInto_append_ne
    intro jk hj hne
    simp only [usedKeysOf, hj, hne, if_false, List.mem_singleton] at h
    exact fun he => h he.symm
  | consecutive b =>
    simp only [integrateRecord, IntegratedProblem.consecutive.injEq]
    refine congrArg₂ (fun cp sq => { b with case_presentation := cp, sub_questions := sq }) rfl ?_
    refine List.map_congr_left ?_
    intro q hq
    apply integrateInto_append_ne
    intro jk hj hne he
    apply h
    simp only [usedKeysOf, List.mem_append]
    right
    refine List.mem_flatten.mpr ⟨[jk], List.mem_map.mpr ⟨q, hq, by simp [hj, hne]⟩, ?_⟩
    simp [he]

/-- C3: for every exam input set, a join key present in the answer table
that is carried by no record (no single question, no sub-question, no
consecutive block) leaves the integrated record list unchanged and is
appended to the unmatched-answers report, which therefore contains it.
The freshness hypothesis keeps the extended table a well-formed dict. -/
theorem C3_unmatchedReporting : ∀ cf sf ak imf k v recs unm,
    integrate_answers cf sf ak imf = some (recs, unm) →
    k ∉ ak.map Prod.fst →
    (∀ r ∈ recs, k ∉ usedKeysOf r) →
    integrate_answers cf sf (ak ++ [(k, v)]) imf = some (recs, unm ++ [k]) ∧
      k ∈ unm ++ [k] := by
  intro cf sf ak imf k v recs unm h _hfresh hnk
  obtain ⟨hr, hu⟩ := integrate_some_elim cf sf ak imf recs unm h
  have hne : allProblemsOf cf sf ≠ [] := by
    intro hemp
    simp [integrate_answers, hemp] at h
  have hint : integratedOf cf sf (ak ++ [(k, v)]) imf = integratedOf cf sf ak imf := by
    unfold integratedOf
    refine List.map_congr_left ?_
    intro r hr2
    apply integrateRecord_append_ne
    have hmem : integrateRecord ak (mergeMappings imf) r ∈ recs := by
      rw [hr]
      exact (pySort_mem _ _ _).mpr (List.mem_map.mpr ⟨r, hr2, rfl⟩)
    have h2 := hnk _ hmem
    rwa [usedKeysOf_integrateRecord] at h2
  have hused : usedOf cf sf (ak ++ [(k, v)]) imf = usedOf cf sf ak imf := by
    unfold usedOf
    rw [hint]
  have hknu : k ∉ usedOf cf sf ak imf := by
    unfold usedOf
    intro hmem
    rcases List.mem_flatten.mp hmem with ⟨l, hl, hkl⟩
    rcases List.mem_map.mp hl with ⟨r, hrmem, he⟩
    refine hnk r ?_ (he ▸ hkl)
    rw [hr]
    exact (pySort_mem _ _ _).mpr hrmem
  have hunm : unmatchedOf cf sf (ak ++ [(k, v)]) imf = unm ++ [k] := by
    unfold unmatchedOf
    rw [hused, List.filter_append, List.map_append]
    refine congrArg₂ (· ++ ·) ?_ ?_
    · rw [hu]
      unfold unmatchedOf
      rfl
    · simp [hknu]
  refine ⟨?_, by simp⟩
  unfold integrate_answers
  rw [if_neg hne, hint, hunm, hr]

/-- Closed witness for C3_unmatchedReporting: a table entry Z-99 matching
no record is reported unmatched and changes nothing else. -/
theorem C3_unmatchedReporting_witness :
    integrate_answers [] [[exProbA1]]
        ([("A-1".data, ["600".data])] ++ [("Z-99".data, ["B".data])]) [] =
      some ([IntegratedProblem.single (some "q1".data)
        { exProbA1 with answer := some (AnswerInfo.numValue (NumVal.ofInt 600)) }],
        [] ++ ["Z-99".data]) ∧
      "Z-99".data ∈ ([] : List (List Char)) ++ ["Z-99".data] :=
  C3_unmatchedReporting [] [[exProbA1]] [("A-1".data, ["600".data])] []
    "Z-99".data ["B".data]
    [IntegratedProblem.single (some "q1".data)
      { exProbA1 with answer := some (AnswerInfo.numValue (NumVal.ofInt 600)) }]
    [] (by decide) (by decide) (by decide)

theorem optNatLe_trans : ∀ a b c : Option Nat,
    optNatLe a b = true → optNatLe b c = true → optNatLe a c = true
  | _, _, none, _, _ => by simp [optNatLe]
  | _, none, some _, _, h2 => by simp [optNatLe] at h2
  | none, some _, some _, h1, _ => by simp [optNatLe] at h1
  | some a, some b, some c, h1, h2 => by
    simp only [optNatLe] at h1 h2 ⊢
    exact decide_eq_true (Nat.le_trans (of_decide_eq_true h1) (of_decide_eq_true h2))

theorem optNatLe_total : ∀ a b : Option Nat, optNatLe a b || optNatLe b a
  | _, none => by simp [optNatLe]
  | none, some _ => by simp [optNatLe]
  | some a, some b => by
    simp only [optNatLe, Bool.or_eq_true, decide_eq_true_eq]
    exact Nat.le_total a b

theorem keyLe_trans : ∀ k1 k2 k3 : List Char × Option Nat,
    keyLe k1 k2 = true → keyLe k2 k3 = true → keyLe k1 k3 = true := by
  intro k1 k2 k3 h1 h2
  unfold keyLe at h1 h2 ⊢
  by_cases e12 : k1.1 = k2.1
  · by_cases e23 : k2.1 = k3.1
    · rw [if_pos e12] at h1
      rw [if_pos e23] at h2
      rw [if_pos (e12.trans e23)]
      exact optNatLe_trans _ _ _ h1 h2
    · have e13 : ¬ k1.1 = k3.1 := fun h => e23 (e12.symm.trans h)
      rw [if_neg e23] at h2
      rw [if_neg e13, e12]
      exact h2
  · by_cases e23 : k2.1 = k3.1
    · have e13 : ¬ k1.1 = k3.1 := fun h => e12 (h.trans e23.symm)
      rw [if_neg e12] at h1
      rw [if_neg e13, ← e23]
      exact h1
    · rw [if_neg e12] at h1
      rw [if_neg e23] at h2
      by_cases e13 : k1.1 = k3.1
      · have h2b : strLeB k2.1 k1.1 = true := by
          rw [e13]
          exact h2
        exact absurd (strLeB_antisymm _ _ h1 h2b) e12
      · rw [if_neg e13]
        exact strLeB_trans _ _ _ h1 h2

theorem keyLe_total : ∀ k1 k2 : List Char × Option Nat,
    keyLe k1 k2 || keyLe k2 k1 := by
  intro k1 k2
  unfold keyLe
  by_cases e : k1.1 = k2.1
  · rw [if_pos e, if_pos e.symm]
    exact optNatLe_total _ _
  · rw [if_neg e, if_neg (fun h => e h.symm)]
    exact strLeB_total _ _

theorem recKeyLe_trans : ∀ a b c : IntegratedProblem,
    recKeyLe a b = true → recKeyLe b c = true → recKeyLe a c = true := by
  intro a b c h1 h2
  exact keyLe_trans _ _ _ h1 h2

theorem recKeyLe_total : ∀ a b : IntegratedProblem, recKeyLe a b || recKeyLe b a := by
  intro a b
  exact keyLe_total _ _

/-- C4 counterexample: the claim says records with an unparsable JoinKey
sort last under an empty block letter, but _get_sort_key returns the whole
key string with an infinite number part, so the record with key 1-2 sorts
BEFORE the record with parsable key A-1 (the digit 1 precedes the letter A
in code-point order), and its sort key is its own string, not the empty
string. -/
theorem C4_counterexample :
    integrate_answers [] [[exProbA1, exProbKey12]] [] [] =
      some ([IntegratedProblem.single (some "qx".data) exProbKey12,
             IntegratedProblem.single (some "q1".data) exProbA1], []) ∧
    _get_sort_key (some "1-2".data) = ("1-2".data, none) ∧
    _get_sort_key (some "A-1".data) = ("A".data, some 1) := by decide

/-- C4 (amended): the final integrated record list is sorted
(non-decreasingly, ties kept stable) by the composite key that
_get_sort_key extracts from each record's own JoinKey: a key of shape
letters-dash-digits gives the letter block and first number; a missing or
non-string key gives the empty string with an infinite number, sorting
before every nonempty block letter; any other string key gives the whole
key string with an infinite number, sorting by that string rather than
last. -/
theorem C4_sortedByKey : ∀ cf sf ak imf recs unm,
    integrate_answers cf sf ak imf = some (recs, unm) →
    recs.Pairwise (fun a b => recKeyLe a b = true) := by
  intro cf sf ak imf recs unm h
  obtain ⟨hr, _⟩ := integrate_some_elim cf sf ak imf recs unm h
  rw [hr]
  exact pySort_pairwise recKeyLe recKeyLe_trans recKeyLe_total _

/-- Closed witness for C4_sortedByKey at a concrete input. -/
theorem C4_sortedByKey_witness :
    ([IntegratedProblem.single (some "qx".data) exProbKey12,
      IntegratedProblem.single (some "q1".data) exProbA1]).Pairwise
      (fun a b => recKeyLe a b = true) :=
  C4_sortedByKey [] [[exProbA1, exProbKey12]] [] []
    [IntegratedProblem.single (some "qx".data) exProbKey12,
     IntegratedProblem.single (some "q1".data) exProbA1] [] (by decide)

/-- C9: RecordIntegrationEngine is a pure function of its parsed inputs:
two runs on identical single records, consecutive records, answer table
and image mappings produce identical output, in record order and content
(hence byte-identical canonical serialization, since the JSON writer is
deterministic in list order and field order). -/
theorem C9_idempotentRun : ∀ (cf1 cf2 : List (List ConsecBlock))
    (sf1 sf2 : List (List Problem))
    (ak1 ak2 : List (List Char × List (List Char)))
    (imf1 imf2 : List (List (List Char × List ImgInfo))),
    cf1 = cf2 → sf1 = sf2 → ak1 = ak2 → imf1 = imf2 →
    integrate_answers cf1 sf1 ak1 imf1 = integrate_answers cf2 sf2 ak2 imf2 := by
  intro cf1 cf2 sf1 sf2 ak1 ak2 imf1 imf2 h1 h2 h3 h4
  rw [h1, h2, h3, h4]

/-- Closed witness for C9_idempotentRun at a concrete input. -/
theorem C9_idempotentRun_witness :
    integrate_answers [] [[exProbA1]] [("A-1".data, ["600".data])] [] =
      integrate_answers [] [[exProbA1]] [("A-1".data, ["600".data])] [] :=
  C9_idempotentRun [] [] [[exProbA1]] [[exProbA1]]
    [("A-1".data, ["600".data])] [("A-1".data, ["600".data])] [] []
    rfl rfl rfl rfl

theorem imgRefLe_trans : ∀ a b c : ImgRef,
    imgRefLe a b = true → imgRefLe b c = true → imgRefLe a c = true :=
  fun _ _ _ h1 h2 => strLeB_trans _ _ _ h1 h2

theorem imgRefLe_total : ∀ a b : ImgRef, imgRefLe a b || imgRefLe b a :=
  fun _ _ => strLeB_total _ _

/-- C7 counterexample: the same mapping entry arriving from two mapping
files is concatenated by the merge, and since the already-present check is
computed once against the images present before integration, both copies
are appended: the path a.webp appears twice in the resulting images list,
refuting that no image_path ever appears twice. -/
theorem C7_counterexample :
    integrate_answers [] [[exProbA1]] []
        [[("A-1".data, [exImgA])], [("A-1".data, [exImgA])]] =
      some ([IntegratedProblem.single (some "q1".data)
        { exProbA1 with images := some [exImgRefAA, exImgRefAA] }], []) ∧
    exImgRefAA.path = some "a.webp".data := by decide

theorem appendImages_count (orig : List ImgRef) (incoming : List ImgInfo)
    (q : Option (List Char)) :
    (pySort imgRefLe (orig ++
      (incoming.filter (fun n => !(decide (n.image_path ∈ orig.map (fun i => i.path))))).map
        (fun n => { id := n.image_id, path := n.image_path : ImgRef }))).countP
      (fun r => decide (r.path = q)) =
    orig.countP (fun r => decide (r.path = q)) +
      (if q ∈ orig.map (fun i => i.path) then 0
       else incoming.countP (fun n => decide (n.image_path = q))) := by
  rw [pySort_countP, List.countP_append, List.countP_map, List.countP_filter]
  refine congrArg (fun t => orig.countP (fun r => decide (r.path = q)) + t) ?_
  by_cases hq : q ∈ orig.map (fun i => i.path)
  · rw [if_pos hq]
    refine List.countP_eq_zero.mpr ?_
    intro n _ hcontra
    simp only [Function.comp, Bool.and_eq_true, decide_eq_true_eq,
      Bool.not_eq_eq_eq_not, Bool.not_true, decide_eq_false_iff_not] at hcontra
    refine hcontra.2 ?_
    rw [hcontra.1]
    exact hq
  · rw [if_neg hq]
    refine List.countP_congr ?_
    intro n _
    simp only [Function.comp, Bool.and_eq_true, decide_eq_true_eq,
      Bool.not_eq_eq_eq_not, Bool.not_true, decide_eq_false_iff_not]
    exact ⟨fun hx => hx.1, fun hx => ⟨hx, fun hmem => hq (hx ▸ hmem)⟩⟩

/-- C7 (amended): for a problem whose truthy join_key is present in the
merged ImageMapping, the updated images list is sorted by path, and for
every path value it contains: all originally present references with that
path, plus, when the path was not already present, every incoming
reference with that path (so duplicates inside the merged incoming list
are all appended; deduplication happens only against the list as it was
before integration). -/
theorem C7_imageIntegration : ∀ (p : Problem)
    (ak : List (List Char × List (List Char)))
    (im : List (List Char × List ImgInfo)) (jk : List Char)
    (incoming : List ImgInfo),
    p.join_key = some jk → jk ≠ [] → dictLookup jk im = some incoming →
    ∃ l, (_integrate_data_into_problem p ak im).images = some l ∧
      l.Pairwise (fun a b => imgRefLe a b = true) ∧
      ∀ q : Option (List Char),
        l.countP (fun r => decide (r.path = q)) =
          (p.images.getD []).countP (fun r => decide (r.path = q)) +
            (if q ∈ (p.images.getD []).map (fun i => i.path) then 0
             else incoming.countP (fun n => decide (n.image_path = q))) := by
  intro p ak im jk incoming hjk hne him
  unfold _integrate_data_into_problem
  rw [hjk]
  simp only [hne, if_false]
  rw [him]
  cases hak : dictLookup jk ak with
  | none =>
    exact ⟨_, rfl, pySort_pairwise imgRefLe imgRefLe_trans imgRefLe_total _,
      fun q => appendImages_count (p.images.getD []) incoming q⟩
  | some ans =>
    exact ⟨_, rfl, pySort_pairwise imgRefLe imgRefLe_trans imgRefLe_total _,
      fun q => appendImages_count (p.images.getD []) incoming q⟩

/-- Closed witness for C7_imageIntegration at a concrete input. -/
theorem C7_imageIntegration_witness :
    ∃ l, (_integrate_data_into_problem exProbA1 [] [("A-1".data, [exImgA])]).images = some l ∧
      l.Pairwise (fun a b => imgRefLe a b = true) ∧
      ∀ q : Option (List Char),
        l.countP (fun r => decide (r.path = q)) =
          (exProbA1.images.getD []).countP (fun r => decide (r.path = q)) +
            (if q ∈ (exProbA1.images.getD []).map (fun i => i.path) then 0
             else [exImgA].countP (fun n => decide (n.image_path = q))) :=
  C7_imageIntegration exProbA1 [] [("A-1".data, [exImgA])] "A-1".data [exImgA]
    (by decide) (by decide) (by decide)

theorem ratPairLe_trans : ∀ p q r : Rat × Rat,
    ratPairLe p q = true → ratPairLe q r = true → ratPairLe p r = true := by
  intro p q r h1 h2
  unfold ratPairLe at h1 h2 ⊢
  by_cases e12 : p.1 = q.1
  · by_cases e23 : q.1 = r.1
    · rw [if_pos e12] at h1
      rw [if_pos e23] at h2
      rw [if_pos (e12.trans e23)]
      simp only [decide_eq_true_eq] at h1 h2 ⊢
      exact le_trans h1 h2
    · have e13 : ¬ p.1 = r.1 := fun h => e23 (e12.symm.trans h)
      rw [if_neg e23] at h2
      rw [if_neg e13, e12]
      exact h2
  · by_cases e23 : q.1 = r.1
    · have e13 : ¬ p.1 = r.1 := fun h => e12 (h.trans e23.symm)
      rw [if_neg e12] at h1
      rw [if_neg e13, ← e23]
      exact h1
    · rw [if_neg e12] at h1
      rw [if_neg e23] at h2
      simp only [decide_eq_true_eq] at h1 h2
      by_cases e13 : p.1 = r.1
      · rw [e13] at h1
        exact absurd (lt_trans h1 h2) (lt_irrefl _)
      · rw [if_neg e13]
        simp only [decide_eq_true_eq]
        exact lt_trans h1 h2

theorem ratPairLe_total : ∀ p q : Rat × Rat, ratPairLe p q || ratPairLe q p := by
  intro p q
  unfold ratPairLe
  by_cases e : p.1 = q.1
  · rw [if_pos e, if_pos e.symm]
    simp only [Bool.or_eq_true, decide_eq_true_eq]
    exact le_total p.2 q.2
  · rw [if_neg e, if_neg (fun h => e h.symm)]
    simp only [Bool.or_eq_true, decide_eq_true_eq]
    rcases lt_trichotomy p.1 q.1 with h | h | h
    · exact Or.inl h
    · exact absurd h e
    · exact Or.inr h

theorem blockLe_trans : ∀ a b c : TextBlock,
    blockLe a b = true → blockLe b c = true → blockLe a c = true :=
  fun _ _ _ h1 h2 => ratPairLe_trans _ _ _ h1 h2

theorem blockLe_total : ∀ a b : TextBlock, blockLe a b || blockLe b a :=
  fun _ _ => ratPairLe_total _ _

/-- C8 counterexample: the claim says a block with a malformed bbox is
appended at the end of the page while the well-formed blocks are still
sorted, but the code catches the key failure around the whole sorted()
call and falls back to the original order of the entire page: with a
malformed block listed first, the page is emitted BAD before GOOD, not
GOOD before BAD. -/
theorem C8_counterexample :
    reorder_text [{ page_number := some 1, text_blocks := [exBlockBad, exBlockGood] }] =
      "--- Page 1 ---\n".data ++ "BAD".data ++ ['\n'] ++ "GOOD".data ++ "\n\n".data ∧
    reorder_text [{ page_number := some 1, text_blocks := [exBlockBad, exBlockGood] }] ≠
      "--- Page 1 ---\n".data ++ "GOOD".data ++ ['\n'] ++ "BAD".data ++ "\n\n".data := by
  decide

/-- C8 (amended): the reordering stage is a total function (it never
raises): every page emits a permutation of its blocks (no block is
dropped); a page whose blocks all have well-formed bboxes is emitted
sorted by (y0, x0); but a page containing any malformed or missing bbox is
emitted entirely in its original order, so the malformed block stays in
place and the well-formed blocks of that page are NOT sorted. -/
theorem C8_malformedFallback : ∀ (pn : Option Nat) (blocks : List TextBlock),
    (pageOrder blocks).Perm blocks ∧
    (blocks.all blockKeyOk = true →
      (pageOrder blocks).Pairwise (fun a b => blockLe a b = true)) ∧
    (blocks.all blockKeyOk = false → pageOrder blocks = blocks) ∧
    (blocks ≠ [] → reorderPage pn blocks =
      "--- Page ".data ++ pageNumStr pn ++ " ---\n".data ++
        (List.intercalate ['\n'] ((pageOrder blocks).map (fun b => b.text))) ++
          "\n\n".data) := by
  intro pn blocks
  refine ⟨?_, ?_, ?_, ?_⟩
  · unfold pageOrder
    split
    · exact pySort_perm _ _
    · exact List.Perm.refl _
  · intro h
    unfold pageOrder
    rw [if_pos h]
    exact pySort_pairwise blockLe blockLe_trans blockLe_total _
  · intro h
    unfold pageOrder
    rw [if_neg (by simp [h])]
  · intro h
    unfold reorderPage
    rw [if_neg h]

/-- Closed witness for C8_malformedFallback at concrete inputs, with the
conditional parts discharged on both a well-formed and a malformed page. -/
theorem C8_malformedFallback_witness :
    (pageOrder [exBlockLow, exBlockGood]).Pairwise
      (fun a b => blockLe a b = true) ∧
    pageOrder [exBlockBad, exBlockGood] = [exBlockBad, exBlockGood] ∧
    reorderPage (some 1) [exBlockLow, exBlockGood] =
      "--- Page ".data ++ pageNumStr (some 1) ++ " ---\n".data ++
        (List.intercalate ['\n']
          ((pageOrder [exBlockLow, exBlockGood]).map (fun b => b.text))) ++
          "\n\n".data :=
  ⟨(C8_malformedFallback (some 1) [exBlockLow, exBlockGood]).2.1 (by decide),
   (C8_malformedFallback (some 1) [exBlockBad, exBlockGood]).2.2.1 (by decide),
   (C8_malformedFallback (some 1) [exBlockLow, exBlockGood]).2.2.2 (by decide)⟩

theorem foldlPreserve (P : γ → Prop) (f : γ → β → γ)
    (hf : ∀ acc b, P acc → P (f acc b)) :
    ∀ (l : List β) (acc : γ), P acc → P (l.foldl f acc)
  | [], _, h => h
  | b :: bs, acc, h => foldlPreserve P f hf bs (f acc b) (hf acc b h)

theorem assignIds_length : ∀ (l : List ImgInfo) (i : Nat),
    (assignIds i l).length = l.length
  | [], _ => rfl
  | _ :: rest, i => by simp [assignIds, assignIds_length rest (i + 1)]

theorem assignIds_map_path : ∀ (l : List ImgInfo) (i : Nat),
    (assignIds i l).map (fun e => e.image_path) = l.map (fun e => e.image_path)
  | [], _ => rfl
  | img :: rest, i => by simp [assignIds, assignIds_map_path rest (i + 1)]

theorem assignIds_get : ∀ (l : List ImgInfo) (i j : Nat)
    (hj : j < (assignIds i l).length),
    ((assignIds i l).get ⟨j, hj⟩).image_id = some [Char.ofNat (65 + i + j)]
  | [], i, j, hj => by simp [assignIds] at hj
  | img :: rest, i, 0, hj => by simp [assignIds]
  | img :: rest, i, j + 1, hj => by
    have h2 := assignIds_get rest (i + 1) j (by
      simpa [assignIds, Nat.succ_lt_succ_iff] using hj)
    simpa [assignIds, Nat.add_assoc, Nat.add_comm 1 j] using h2

theorem imgInfoPathLe_trans : ∀ a b c : ImgInfo,
    imgInfoPathLe a b = true → imgInfoPathLe b c = true → imgInfoPathLe a c = true :=
  fun _ _ _ h1 h2 => strLeB_trans _ _ _ h1 h2

theorem imgInfoPathLe_total : ∀ a b : ImgInfo, imgInfoPathLe a b || imgInfoPathLe b a :=
  fun _ _ => strLeB_total _ _

theorem goodList_assign (v : List ImgInfo) :
    goodList (assignIds 0 (pySort imgInfoPathLe v)) := by
  constructor
  · rw [assignIds_map_path]
    have h := pySort_pairwise imgInfoPathLe imgInfoPathLe_trans imgInfoPathLe_total v
    exact (List.pairwise_map).mpr h
  · intro j hj
    simpa using assignIds_get (pySort imgInfoPathLe v) 0 j hj

theorem mem_dictSet : ∀ (m : List (List Char × List ImgInfo)) (k : List Char)
    (v : List ImgInfo) (kv : List Char × List ImgInfo),
    kv ∈ dictSet m k v → kv ∈ m ∨ kv = (k, v)
  | [], k, v, kv, h => by
    simp only [dictSet, List.mem_singleton] at h
    exact Or.inr h
  | (k2, v2) :: rest, k, v, kv, h => by
    simp only [dictSet] at h
    split at h
    · rename_i he
      rcases List.mem_cons.mp h with h2 | h2
      · exact Or.inr (by rw [h2, he])
      · exact Or.inl (List.mem_cons.mpr (Or.inr h2))
    · rcases List.mem_cons.mp h with h2 | h2
      · exact Or.inl (List.mem_cons.mpr (Or.inl h2))
      · rcases mem_dictSet rest k v kv h2 with h3 | h3
        · exact Or.inl (List.mem_cons.mpr (Or.inr h3))
        · exact Or.inr h3

theorem collectChunk_good (pages : List RawPage) (stem : List Char)
    (acc : List (List Char × List ImgInfo)) (chunk : Chunk)
    (h : ∀ kv ∈ acc, goodList kv.2) :
    ∀ kv ∈ collectChunk pages stem acc chunk, goodList kv.2 := by
  intro kv hkv
  unfold collectChunk at hkv
  split at hkv
  · exact h kv hkv
  · dsimp only [] at hkv
    split at hkv
    · exact h kv hkv
    · rcases mem_dictSet _ _ _ kv hkv with h2 | h2
      · exact h kv h2
      · rw [h2]
        exact goodList_assign _

theorem appendIfNewPath_nodup (l : List ImgInfo) (e : ImgInfo)
    (h : pathsNodup l) : pathsNodup (appendIfNewPath l e) := by
  unfold appendIfNewPath
  split
  · exact h
  · rename_i hany
    unfold pathsNodup
    rw [List.map_append]
    simp only [List.map_cons, List.map_nil]
    refine List.nodup_append.mpr ⟨h, List.nodup_singleton _, ?_⟩
    intro a ha hb
    rcases List.mem_map.mp ha with ⟨img, himg, he⟩
    simp only [List.mem_singleton] at hb
    apply hany
    refine List.any_eq_true.mpr ⟨img, himg, ?_⟩
    simp [he, hb]

theorem dictAppendEntry_nodup : ∀ (m : List (List Char × List ImgInfo))
    (k : List Char) (e : ImgInfo),
    (∀ kv ∈ m, pathsNodup kv.2) →
    ∀ kv ∈ dictAppendEntry m k e, pathsNodup kv.2
  | [], k, e, _, kv, hkv => by
    simp only [dictAppendEntry, List.mem_singleton] at hkv
    rw [hkv]
    exact appendIfNewPath_nodup [] e (by simp [pathsNodup])
  | (k2, v) :: rest, k, e, h, kv, hkv => by
    simp only [dictAppendEntry] at hkv
    split at hkv
    · rcases List.mem_cons.mp hkv with h2 | h2
      · rw [h2]
        exact appendIfNewPath_nodup v e (h (k2, v) (List.mem_cons_self _ _))
      · exact h kv (List.mem_cons.mpr (Or.inr h2))
    · rcases List.mem_cons.mp hkv with h2 | h2
      · rw [h2]
        exact h (k2, v) (List.mem_cons_self _ _)
      · exact dictAppendEntry_nodup rest k e
          (fun kv2 hkv2 => h kv2 (List.mem_cons.mpr (Or.inr hkv2))) kv h2

theorem collectImage_nodup (pn : Option Int)
    (acc : List (List Char × List ImgInfo)) (img : RawImage)
    (h : ∀ kv ∈ acc, pathsNodup kv.2) :
    ∀ kv ∈ collectImage pn acc img, pathsNodup kv.2 := by
  intro kv hkv
  unfold collectImage at hkv
  split at hkv
  · exact h kv hkv
  · split at hkv
    · exact h kv hkv
    · split at hkv
      · exact h kv hkv
      · split at hkv
        · exact h kv hkv
        · exact dictAppendEntry_nodup acc _ _ h kv hkv

theorem collected_nodup (pages : List RawPage) :
    ∀ kv ∈ pages.foldl
      (fun acc page => (pySort imgYLe page.images).foldl (collectImage page.page_number) acc)
      [], pathsNodup kv.2 := by
  refine foldlPreserve
    (fun (m : List (List Char × List ImgInfo)) => ∀ kv ∈ m, pathsNodup kv.2)
    _ ?_ pages [] (by simp)
  intro acc page hacc
  exact foldlPreserve
    (fun (m : List (List Char × List ImgInfo)) => ∀ kv ∈ m, pathsNodup kv.2) _
    (fun acc2 img h2 => collectImage_nodup page.page_number acc2 img h2)
    (pySort imgYLe page.images) acc hacc

/-- C5 counterexample: in consecutive mode (step4d) images are NOT
deduplicated by image_path: two raw images with the same path and a
matching range caption both enter the mapping, the same path receiving
ids A and B. -/
theorem C5_counterexample :
    map_consecutive_images [{ page_number := some 1, images := [exImgDupA, exImgDupA] }]
        [exChunk6062] "st".data =
      [("X-60-62".data, [exInfoDupA, exInfoDupB])] ∧
    exInfoDupA.image_path = exInfoDupB.image_path := by decide

/-- C5 (amended): in both image-association modes every emitted per-key
image list is sorted ascending by image_path and carries sequential
single-letter ids A, B, C, ... in that sorted order; in single mode
(step4c) paths are additionally deduplicated, but in consecutive mode
(step4d) they are NOT: a path can appear twice with distinct ids.  Images
with paths b.webp, a.webp, c.webp under one JoinKey receive ids a.webp to
A, b.webp to B, c.webp to C in both modes, deterministically. -/
theorem C5_imageIdAssignment :
    (∀ pages k l, (k, l) ∈ map_images_to_questions pages → goodList l ∧ pathsNodup l) ∧
    (∀ pages chunks stem k l,
      (k, l) ∈ map_consecutive_images pages chunks stem → goodList l) ∧
    map_images_to_questions [exPageBAC] =
      [("A-20".data, [exInfoA20A, exInfoA20B, exInfoA20C])] ∧
    map_consecutive_images [exPage4dBAC] [exChunk6062] "tp220502-01c_01".data =
      [("C-60-62".data, [exInfoC60A, exInfoC60B, exInfoC60C])] := by
  refine ⟨?_, ?_, by decide, by decide⟩
  · intro pages k l hkl
    unfold map_images_to_questions finalizeMapping at hkl
    rcases List.mem_map.mp hkl with ⟨kv, hkv, he⟩
    have h2 : l = assignIds 0 (pySort imgInfoPathLe kv.2) :=
      (congrArg Prod.snd he).symm
    refine ⟨h2 ▸ goodList_assign kv.2, ?_⟩
    unfold pathsNodup
    rw [h2, assignIds_map_path]
    have hperm : ((pySort imgInfoPathLe kv.2).map (fun e => e.image_path)).Perm
        (kv.2.map (fun e => e.image_path)) := (pySort_perm _ _).map _
    exact hperm.nodup_iff.mpr (collected_nodup pages kv hkv)
  · intro pages chunks stem k l hkl
    have hall := foldlPreserve
      (fun (m : List (List Char × List ImgInfo)) => ∀ kv ∈ m, goodList kv.2)
      (collectChunk pages stem)
      (fun acc c h => collectChunk_good pages stem acc c h) chunks [] (by simp)
    exact hall (k, l) hkl

/-- Closed witness for C5_imageIdAssignment at concrete inputs in both
modes. -/
theorem C5_imageIdAssignment_witness :
    (goodList [exInfoA20A, exInfoA20B, exInfoA20C] ∧
      pathsNodup [exInfoA20A, exInfoA20B, exInfoA20C]) ∧
    goodList [exInfoC60A, exInfoC60B, exInfoC60C] :=
  ⟨C5_imageIdAssignment.1 [exPageBAC] "A-20".data
      [exInfoA20A, exInfoA20B, exInfoA20C] (by decide),
   C5_imageIdAssignment.2.1 [exPage4dBAC] [exChunk6062] "tp220502-01c_01".data
      "C-60-62".data [exInfoC60A, exInfoC60B, exInfoC60C] (by decide)⟩

theorem findStemBlock_none : ∀ l : List Char,
    (∀ i < l.length, stemBlockAt (l.drop i) = none) → findStemBlock l = none
  | [], _ => rfl
  | c :: cs, h => by
    unfold findStemBlock
    rw [show stemBlockAt (c :: cs) = none from by simpa using h 0 (by simp)]
    exact findStemBlock_none cs (fun i hi => by
      simpa using h (i + 1) (by simpa using Nat.succ_lt_succ hi))

theorem findStemBlock_some : ∀ (l : List Char) (i : Nat) (c : Char),
    stemBlockAt (l.drop i) = some c → (∀ j < i, stemBlockAt (l.drop j) = none) →
    findStemBlock l = some c
  | [], i, c, h, _ => by
    rw [List.drop_nil] at h
    exact absurd h (by simp [stemBlockAt])
  | x :: xs, 0, c, h, _ => by
    unfold findStemBlock
    rw [show stemBlockAt (x :: xs) = some c from by simpa using h]
  | x :: xs, i + 1, c, h, hj => by
    unfold findStemBlock
    rw [show stemBlockAt (x :: xs) = none from by
      simpa using hj 0 (Nat.succ_pos i)]
    exact findStemBlock_some xs i c (by simpa using h)
      (fun j hji => by simpa using hj (j + 1) (Nat.succ_lt_succ hji))

theorem collectChunk_short (pages : List RawPage) (stem : List Char)
    (c : Chunk) (h : c.question_numbers.length < 2) :
    ∀ acc, collectChunk pages stem acc c = acc := by
  intro acc
  unfold collectChunk
  rw [if_pos (by simp [h])]

/-- C10: when the PDF stem contains no substring of the shape
dash-two-digits-letter-underscore, the consecutive JoinKey uses the
literal block letter X; when the stem does match, the first matched letter
is used, uppercased; and a chunk whose question_numbers list has fewer
than two entries is skipped entirely, so its presence or absence changes
nothing and it is never assigned any images. -/
theorem C10_consecutiveJoinKey :
    (∀ stem s e, (∀ i < stem.length, stemBlockAt (stem.drop i) = none) →
      create_consecutive_join_key stem s e =
        ['X'] ++ ('-' :: natDigits s) ++ ('-' :: natDigits e)) ∧
    (∀ stem s e i c, stemBlockAt (stem.drop i) = some c →
      (∀ j < i, stemBlockAt (stem.drop j) = none) →
      create_consecutive_join_key stem s e =
        [pyUpperChar c] ++ ('-' :: natDigits s) ++ ('-' :: natDigits e)) ∧
    (∀ pages stem (c : Chunk) (pre post : List Chunk),
      c.question_numbers.length < 2 →
      map_consecutive_images pages (pre ++ c :: post) stem =
        map_consecutive_images pages (pre ++ post) stem) := by
  refine ⟨?_, ?_, ?_⟩
  · intro stem s e h
    unfold create_consecutive_join_key
    rw [findStemBlock_none stem h]
  · intro stem s e i c h hj
    unfold create_consecutive_join_key
    rw [findStemBlock_some stem i c h hj]
  · intro pages stem c pre post h
    unfold map_consecutive_images
    rw [List.foldl_append, List.foldl_append, List.foldl_cons,
      collectChunk_short pages stem c h]

/-- Closed witness for C10_consecutiveJoinKey: a stem with no block
pattern falls back to X, the stem tp220502-01c_01 gives block letter C,
and a one-question chunk contributes nothing. -/
theorem C10_consecutiveJoinKey_witness :
    create_consecutive_join_key "abc".data 60 62 =
      ['X'] ++ ('-' :: natDigits 60) ++ ('-' :: natDigits 62) ∧
    create_consecutive_join_key "tp220502-01c_01".data 60 62 =
      [pyUpperChar 'c'] ++ ('-' :: natDigits 60) ++ ('-' :: natDigits 62) ∧
    map_consecutive_images [] ([] ++ exChunkShort :: []) "st".data =
      map_consecutive_images [] ([] ++ []) "st".data :=
  ⟨C10_consecutiveJoinKey.1 "abc".data 60 62 (by decide),
   C10_consecutiveJoinKey.2.1 "tp220502-01c_01".data 60 62 8 'c'
     (by decide) (by decide),
   C10_consecutiveJoinKey.2.2 [] "st".data exChunkShort [] [] (by decide)⟩

theorem firstIdx_some (p : List Char → Bool) : ∀ (l : List Char) (j : Nat),
    firstIdx p l = some j →
    p (l.drop j) = true ∧ ∀ i < j, p (l.drop i) = false
  | [], j, h => by
    simp only [firstIdx] at h
    split at h
    · rename_i hp
      injection h with h
      subst h
      exact ⟨hp, fun i hi => absurd hi (Nat.not_lt_zero i)⟩
    · exact absurd h (by simp)
  | c :: cs, j, h => by
    simp only [firstIdx] at h
    split at h
    · rename_i hp
      injection h with h
      subst h
      exact ⟨hp, fun i hi => absurd hi (Nat.not_lt_zero i)⟩
    · rename_i hp
      cases hf : firstIdx p cs with
      | none =>
        rw [hf] at h
        exact absurd h (by simp)
      | some j0 =>
        rw [hf] at h
        simp only [Option.map_some', Option.some.injEq] at h
        subst h
        obtain ⟨h1, h2⟩ := firstIdx_some p cs j0 hf
        refine ⟨h1, ?_⟩
        intro i hi
        cases i with
        | zero => exact Bool.eq_false_iff.mpr hp
        | succ i0 =>
          exact h2 i0 (Nat.lt_of_succ_lt_succ hi)

theorem firstIdx_none (p : List Char → Bool) : ∀ (l : List Char),
    firstIdx p l = none → ∀ i, p (l.drop i) = false
  | [], h, i => by
    simp only [firstIdx] at h
    split at h
    · exact absurd h (by simp)
    · rename_i hp
      simpa using Bool.eq_false_iff.mpr hp
  | c :: cs, h, i => by
    simp only [firstIdx] at h
    split at h
    · exact absurd h (by simp)
    · rename_i hp
      cases i with
      | zero => exact Bool.eq_false_iff.mpr hp
      | succ i0 =>
        have hf : firstIdx p cs = none := by
          cases hf2 : firstIdx p cs with
          | none => rfl
          | some j0 =>
            rw [hf2] at h
            exact absurd h (by simp)
        exact firstIdx_none p cs hf i0

theorem spansOf_length (textLen : Nat) : ∀ ms : List (Nat × Nat × Nat),
    (spansOf textLen ms).length = ms.length
  | [] => rfl
  | (p, n, m) :: rest => by
    simp [spansOf, spansOf_length textLen rest]

/-- C6: every trigger match yields exactly one chunk; its candidate span
runs from the trigger to the start of the next trigger or the end of the
text (the spansOf shape); the truncation position the code uses is the
FIRST position of the span where the literal start of question M+1 sits
at a line start preceded by a page marker or a newline, and when no
position matches the full candidate span is kept; on the example text the
detector returns exactly one span covering 60 to 62 and excludes the text
of question 63. -/
theorem C6_spanBoundary :
    (∀ stem text, chunk_consecutive_questions stem text =
      (spansOf text.length (findTriggers text)).map (processSpan stem text) ∧
      (chunk_consecutive_questions stem text).length = (findTriggers text).length) ∧
    (∀ qn current j, firstIdx (nextQAt qn) current = some j →
      nextQAt qn (current.drop j) = true ∧
        ∀ i < j, nextQAt qn (current.drop i) = false) ∧
    (∀ qn current, firstIdx (nextQAt qn) current = none →
      ∀ i, nextQAt qn (current.drop i) = false) ∧
    chunk_consecutive_questions "st".data exC6Text = [exC6Chunk] ∧
    exC6Chunk.question_numbers = [60, 61, 62] ∧
    (¬ ("63".data ++ [Char.ofNat 12288]) <:+: exC6Chunk.text) ∧
    (¬ "q63".data <:+: exC6Chunk.text) := by
  refine ⟨?_, ?_, ?_, by decide, by decide, by decide, by decide⟩
  · intro stem text
    refine ⟨rfl, ?_⟩
    unfold chunk_consecutive_questions
    rw [List.length_map, spansOf_length]
  · intro qn current j h
    exact firstIdx_some (nextQAt qn) current j h
  · intro qn current h i
    exact firstIdx_none (nextQAt qn) current h i

/-- Closed witness for C6_spanBoundary: the next-question search on a
concrete span, with the located position checked and earlier and absent
positions refuted. -/
theorem C6_spanBoundary_witness :
    nextQAt 63 (exC6Current.drop 3) = true ∧
    nextQAt 63 (exC6Current.drop 1) = false ∧
    nextQAt 63 ("abc".data.drop 2) = false :=
  ⟨(C6_spanBoundary.2.1 63 exC6Current 3 (by decide)).1,
   (C6_spanBoundary.2.1 63 exC6Current 3 (by decide)).2 1 (by decide),
   C6_spanBoundary.2.2.1 63 "abc".data (by decide) 2⟩
